import Mathlib

/-!
Upgrade-policy status reporting of the addon operator.

A shallow embedding of `internal/controllers/addon/upgradepolicy_status.go`.

* Go strings are modelled by `String`; a Go `error` by `Option String`
  (`none` is `nil`, `some m` is a non-nil error whose message is `m`).
* The addon is passed by pointer in Go and mutated in place; here every
  function takes the addon and returns the addon it leaves behind.
* The external upgrade-tracking service is a state `σ` together with the two
  calls of the OCM client; every call that is issued is appended, with its
  outcome, to the trace `World.calls`.
* A function result of `none` is a run-time panic (nil dereference).
* Logging, the context argument and the read lock around the client handle
  have no effect on the values computed and are left out.
-/

namespace strconv

/-- Digit `n % 16` of the table `lowerhex = "0123456789abcdef"`. -/
def lowerhex (n : Nat) : Char :=
  if n % 16 < 10 then Char.ofNat (48 + n % 16) else Char.ofNat (87 + n % 16)

/-- The Go function `strconv.IsPrint`. The fast path for Latin-1 is the library's code;
for runes above U+00FF the library consults Unicode range tables, which are taken
as the parameter `wide`. -/
def IsPrint (wide : Char → Bool) (r : Char) : Bool :=
  if r.toNat ≤ 0xFF then
    if 0x20 ≤ r.toNat ∧ r.toNat ≤ 0x7E then true
    else if 0xA1 ≤ r.toNat ∧ r.toNat ≤ 0xFF then r.toNat != 0xAD
    else false
  else wide r

/-- The Go function `strconv.appendEscapedRune` for the double quote, with
`ASCIIonly = false` and `graphicOnly = false`: the characters that rune `r`
contributes to a quoted string. -/
def appendEscapedRune (wide : Char → Bool) (r : Char) : List Char :=
  if r.toNat = 34 ∨ r.toNat = 92 then [Char.ofNat 92, r]
  else if IsPrint wide r then [r]
  else if r.toNat = 7 then [Char.ofNat 92, 'a']
  else if r.toNat = 8 then [Char.ofNat 92, 'b']
  else if r.toNat = 12 then [Char.ofNat 92, 'f']
  else if r.toNat = 10 then [Char.ofNat 92, 'n']
  else if r.toNat = 13 then [Char.ofNat 92, 'r']
  else if r.toNat = 9 then [Char.ofNat 92, 't']
  else if r.toNat = 11 then [Char.ofNat 92, 'v']
  else if r.toNat < 32 ∨ r.toNat = 0x7F then
    [Char.ofNat 92, 'x', lowerhex (r.toNat / 16), lowerhex r.toNat]
  else if r.toNat < 0x10000 then
    [Char.ofNat 92, 'u', lowerhex (r.toNat / 4096), lowerhex (r.toNat / 256),
      lowerhex (r.toNat / 16), lowerhex r.toNat]
  else
    [Char.ofNat 92, 'U', lowerhex (r.toNat / 268435456), lowerhex (r.toNat / 16777216),
      lowerhex (r.toNat / 1048576), lowerhex (r.toNat / 65536), lowerhex (r.toNat / 4096),
      lowerhex (r.toNat / 256), lowerhex (r.toNat / 16), lowerhex r.toNat]

/-- The concatenation of the escaped forms of the runes of a string. -/
def escapeRunes (wide : Char → Bool) : List Char → List Char
  | [] => []
  | r :: rs => appendEscapedRune wide r ++ escapeRunes wide rs

/-- The Go function `strconv.Quote`, which is what the verb `%q` of `fmt.Sprintf` and
`fmt.Errorf` prints for a string argument: the string between double quotes, with
Go escape sequences. A `String` is a sequence of Unicode scalar values, so
the branch for bytes that are not valid UTF-8 does not arise. The escape of U+007F
follows the current library (`\x7f`); older releases print `\u007f`. -/
def Quote (wide : Char → Bool) (s : String) : String :=
  String.mk (Char.ofNat 34 :: (escapeRunes wide s.data ++ [Char.ofNat 34]))

end strconv

namespace addonsv1alpha1

/-- Modelled from the spec: the package `apis/addons/v1alpha1` is not among the sources.
The value of the optional record `status.upgradePolicy`, `enum{Started, Completed}`. -/
inductive AddonUpgradePolicyValue where
  | Started
  | Completed
  deriving DecidableEq

/-- Modelled from the spec: `spec.upgradePolicyRef` (`{id}`), the external policy
identifier to report against (the Go field `Spec.UpgradePolicy`). -/
structure AddonUpgradePolicy where
  ID : String
  deriving DecidableEq

/-- Modelled from the spec: `status.upgradePolicy`, the optional record
`{version: string, value: enum{Started, Completed}}`. -/
structure AddonUpgradePolicyStatus where
  Version : String
  Value : AddonUpgradePolicyValue
  deriving DecidableEq

/-- Modelled from the spec: the tag of the install configuration, a tagged union over the
install topology variants *OwnNamespace* and *AllNamespaces*. In Go the tag is a string;
`other` stands for every string that is neither of the two constants. -/
inductive AddonInstallType where
  | OLMOwnNamespace
  | OLMAllNamespaces
  | other (tag : String)
  deriving DecidableEq

/-- Modelled from the spec: what every variant of the install configuration carries, a
catalog image reference and a target namespace (field names as the test writes them). -/
structure AddonInstallOLMCommon where
  CatalogSourceImage : String := ""
  Namespace : String := ""
  deriving DecidableEq

/-- Modelled from the spec: the sub-config of the variant *OwnNamespace*. -/
structure AddonInstallOLMOwnNamespace extends AddonInstallOLMCommon where
  deriving DecidableEq

/-- Modelled from the spec: the sub-config of the variant *AllNamespaces*. -/
structure AddonInstallOLMAllNamespaces extends AddonInstallOLMCommon where
  deriving DecidableEq

/-- Modelled from the spec: `installConfig`, the tag together with one optional sub-config
per variant (pointers in Go, `none` when nil). The default is the Go zero value. The Go
field `Type` is written `Type_`, the word being reserved. -/
structure AddonInstallSpec where
  Type_ : AddonInstallType := AddonInstallType.other ""
  OLMOwnNamespace : Option AddonInstallOLMOwnNamespace := none
  OLMAllNamespaces : Option AddonInstallOLMAllNamespaces := none
  deriving DecidableEq

/-- Modelled from the spec: `spec.version` and `spec.upgradePolicyRef`; the reference is
a pointer in Go, `none` when it is nil. `Install` is the install configuration. -/
structure AddonSpec where
  Version : String
  UpgradePolicy : Option AddonUpgradePolicy
  Install : AddonInstallSpec := {}
  deriving DecidableEq

/-- Modelled from the spec: `status.availability`, a boolean-like condition set by the
outer loop, and `status.upgradePolicy`, absent until the first report. `AvailableReason`
is the reason recorded with the condition `Available`, when one was recorded. -/
structure AddonStatus where
  Available : Bool
  UpgradePolicy : Option AddonUpgradePolicyStatus
  AvailableReason : Option String := none
  deriving DecidableEq

/-- Modelled from the spec: the fields of an Addon that the reporting protocol and the
grouping-resource reconciler read and write. `Name` is the name of the object, by which
an owner reference designates the addon. -/
structure Addon where
  Spec : AddonSpec
  Status : AddonStatus
  Name : String := ""
  deriving DecidableEq

/-- Modelled from the spec: the constant `AddonReasonConfigError` is not among the sources;
the spec gives the reason of the condition as "configuration error". -/
def AddonReasonConfigError : String :=
  "configuration error"

/-- Modelled from the spec: the method `IsAvailable` of the Addon type is not among the
sources; it reads the condition `status.availability` (`Available` / not). -/
def Addon.IsAvailable (a : Addon) : Bool :=
  a.Status.Available

/-- Modelled from the spec: the method `UpgradeCompleteForCurrentVersion` is not among
the sources. The entry guard of the spec negates
`status.upgradePolicy.value == Completed AND status.upgradePolicy.version == spec.version`;
an absent record has neither, and the first row of the decision table (record absent,
report Started) is reached only through the guard, so absence gives `false`. -/
def Addon.UpgradeCompleteForCurrentVersion (a : Addon) : Bool :=
  match a.Status.UpgradePolicy with
  | none => false
  | some st =>
    decide (st.Value = AddonUpgradePolicyValue.Completed) && decide (st.Version = a.Spec.Version)

/-- Modelled from the spec: the method `SetUpgradePolicyStatus` is not among the sources.
"Set local status to `{version: v, value}`", where `v` is `spec.version`. -/
def Addon.SetUpgradePolicyStatus (a : Addon) (val : AddonUpgradePolicyValue) : Addon :=
  { a with Status := { a.Status with
      UpgradePolicy := some { Version := a.Spec.Version, Value := val } } }

end addonsv1alpha1

namespace ocm

/-- Modelled from the spec: the package `internal/ocm` is not among the sources. The value
of an external upgrade policy, `enum{NotStarted, Started, Completed}`. -/
inductive UpgradePolicyValue where
  | NotStarted
  | Started
  | Completed
  deriving DecidableEq

/-- Modelled from the spec: the argument of `getPolicy(id)`. -/
structure UpgradePolicyGetRequest where
  ID : String
  deriving DecidableEq

/-- Modelled from the spec: the answer `{value}` of `getPolicy`. -/
structure UpgradePolicyGetResponse where
  Value : UpgradePolicyValue
  deriving DecidableEq

/-- Modelled from the spec: the argument `{id, value, description}` of `patchPolicy`. -/
structure UpgradePolicyPatchRequest where
  ID : String
  Value : UpgradePolicyValue
  Description : String
  deriving DecidableEq

/-- Modelled from the spec: `patchPolicy` answers with a fault or nothing; the response
value, which the controller discards, carries no information. -/
structure UpgradePolicyPatchResponse where
  deriving DecidableEq

/-- Modelled from the spec: the external upgrade-tracking service as the controller
consumes it. Each call reads the state `σ` of the service and returns the response, the
error, and the state the service is left in. -/
structure Client (σ : Type) where
  GetUpgradePolicy : σ → UpgradePolicyGetRequest → (UpgradePolicyGetResponse × Option String) × σ
  PatchUpgradePolicy :
    σ → UpgradePolicyPatchRequest → (UpgradePolicyPatchResponse × Option String) × σ

end ocm

namespace addon

open addonsv1alpha1

/-- One call issued to the external service, with the request sent and the response
and error that came back. -/
inductive OcmCall where
  | get (req : ocm.UpgradePolicyGetRequest) (res : ocm.UpgradePolicyGetResponse)
      (err : Option String)
  | patch (req : ocm.UpgradePolicyPatchRequest) (res : ocm.UpgradePolicyPatchResponse)
      (err : Option String)
  deriving DecidableEq

/-- Whether the call came back with a non-nil error. -/
def OcmCall.failed : OcmCall → Bool
  | OcmCall.get _ _ err => err.isSome
  | OcmCall.patch _ _ err => err.isSome

/-- Everything outside the addon that a reporting pass can change: the state of the
external service, the trace of calls issued to it (oldest first), and the number of
durations handed to the recorder (`RecordOCMAPIRequests`). The duration itself is a
wall-clock measurement and is not represented. -/
structure World (σ : Type) where
  service : σ
  calls : List OcmCall
  observations : Nat
  deriving DecidableEq

/-- Modelled from the spec: the duration recorder injected into the reconciler; its type
is not among the sources. Only its presence matters to the code embedded here. -/
structure Recorder where
  deriving DecidableEq

/-- The fields of `AddonReconciler` that the reporting code reads: the shared client
handle (`none` when nil) and the recorder (`none` when nil). -/
structure AddonReconciler (σ : Type) where
  ocmClient : Option (ocm.Client σ)
  Recorder : Option Recorder

/-- The Go function `requiresReporting`. -/
def requiresReporting (addon : Addon) : Bool :=
  decide (addon.Spec.Version ≠ "") &&
    addon.Spec.UpgradePolicy.isSome &&
    !addon.UpgradeCompleteForCurrentVersion

/-- The Go method `recordOCMRequestDuration`. The closure `reqFunc`, which in Go stores
its results in variables of the caller, returns them here. With a recorder the deferred
`ObserveDuration` hands one duration to the recorder after `reqFunc` has run. -/
def recordOCMRequestDuration {σ α : Type} (r : AddonReconciler σ)
    (reqFunc : World σ → Option (α × World σ)) (w : World σ) : Option (α × World σ) :=
  match r.Recorder with
  | some _ =>
    match reqFunc w with
    | some (a, w1) => some (a, { w1 with observations := w1.observations + 1 })
    | none => none
  | none => reqFunc w

/-- The Go method `handlePatchUpgradePolicy`: the patch call of the client, wrapped by
the metrics recorder; the response is discarded and the error returned. -/
def handlePatchUpgradePolicy {σ : Type} (r : AddonReconciler σ)
    (req : ocm.UpgradePolicyPatchRequest) (w : World σ) : Option (Option String × World σ) :=
  recordOCMRequestDuration r (fun w0 =>
    match r.ocmClient with
    | none => none
    | some c =>
      let out := c.PatchUpgradePolicy w0.service req
      some (out.1.2,
        { w0 with service := out.2, calls := w0.calls ++ [OcmCall.patch req out.1.1 out.1.2] })) w

/-- The Go method `handleGetUpgradePolicyState`: the get call of the client, wrapped by
the metrics recorder; response and error are returned as they came. -/
def handleGetUpgradePolicyState {σ : Type} (r : AddonReconciler σ)
    (req : ocm.UpgradePolicyGetRequest) (w : World σ) :
    Option ((ocm.UpgradePolicyGetResponse × Option String) × World σ) :=
  recordOCMRequestDuration r (fun w0 =>
    match r.ocmClient with
    | none => none
    | some c =>
      let out := c.GetUpgradePolicy w0.service req
      some (out.1,
        { w0 with service := out.2, calls := w0.calls ++ [OcmCall.get req out.1.1 out.1.2] })) w

/-- The Go method `handleUnknownPreviousVersion`; the result is the pair
`(complete, err)`. -/
def handleUnknownPreviousVersion {σ : Type} (r : AddonReconciler σ) (wide : Char → Bool)
    (addon : Addon) (w : World σ) : Option ((Bool × Option String) × Addon × World σ) :=
  match addon.Spec.UpgradePolicy with
  | none => none
  | some p =>
    let policyID := p.ID
    let req : ocm.UpgradePolicyGetRequest := { ID := policyID }
    match handleGetUpgradePolicyState r req w with
    | none => none
    | some ((_, some err), w1) =>
      some ((false,
        some ("getting UpgradePolicy " ++ strconv.Quote wide policyID ++ " state: " ++ err)),
        addon, w1)
    | some ((res, none), w1) =>
      if res.Value = ocm.UpgradePolicyValue.Completed then
        some ((true, none),
          addon.SetUpgradePolicyStatus AddonUpgradePolicyValue.Completed, w1)
      else
        some ((false, none), addon, w1)

/-- The Go method `reportUpgradeStarted`. -/
def reportUpgradeStarted {σ : Type} (r : AddonReconciler σ) (wide : Char → Bool)
    (addon : Addon) (w : World σ) : Option (Option String × Addon × World σ) :=
  match addon.Spec.UpgradePolicy with
  | none => none
  | some p =>
    let policyID := p.ID
    let version := addon.Spec.Version
    let req : ocm.UpgradePolicyPatchRequest :=
      { ID := policyID
        Value := ocm.UpgradePolicyValue.Started
        Description := "Upgrading addon to version " ++ strconv.Quote wide version ++ "." }
    match handlePatchUpgradePolicy r req w with
    | none => none
    | some (some err, w1) =>
      some (some ("patching UpgradePolicy " ++ strconv.Quote wide policyID ++ " at version "
        ++ strconv.Quote wide version ++ " as 'Started': " ++ err), addon, w1)
    | some (none, w1) =>
      some (none, addon.SetUpgradePolicyStatus AddonUpgradePolicyValue.Started, w1)

/-- The Go method `reportUpgradeCompleted`. -/
def reportUpgradeCompleted {σ : Type} (r : AddonReconciler σ) (wide : Char → Bool)
    (addon : Addon) (w : World σ) : Option (Option String × Addon × World σ) :=
  match addon.Spec.UpgradePolicy with
  | none => none
  | some p =>
    let policyID := p.ID
    let version := addon.Spec.Version
    let req : ocm.UpgradePolicyPatchRequest :=
      { ID := policyID
        Value := ocm.UpgradePolicyValue.Completed
        Description :=
          "Addon was healthy at least once at version " ++ strconv.Quote wide version ++ "." }
    match handlePatchUpgradePolicy r req w with
    | none => none
    | some (some err, w1) =>
      some (some ("patching UpgradePolicy " ++ strconv.Quote wide policyID ++ " at version "
        ++ strconv.Quote wide version ++ " to 'Completed': " ++ err), addon, w1)
    | some (none, w1) =>
      some (none, addon.SetUpgradePolicyStatus AddonUpgradePolicyValue.Completed, w1)

/-- The statements of `handleUpgradePolicyStatusReporting` from the staleness test to the
end of the function (the third and fourth `if` and the final `return nil`), run on the
addon and world that the statements before them left behind. -/
def reportStaleOrCompleted {σ : Type} (r : AddonReconciler σ) (wide : Char → Bool)
    (addon : Addon) (w : World σ) : Option (Option String × Addon × World σ) :=
  match addon.Status.UpgradePolicy with
  | none => none
  | some st =>
    if st.Version ≠ addon.Spec.Version then
      reportUpgradeStarted r wide addon w
    else if addon.IsAvailable then
      reportUpgradeCompleted r wide addon w
    else
      some (none, addon, w)

/-- The Go method `handleUpgradePolicyStatusReporting`. The result is the error
returned, the addon as the pass leaves it, and the world after the pass. -/
def handleUpgradePolicyStatusReporting {σ : Type} (r : AddonReconciler σ)
    (wide : Char → Bool) (addon : Addon) (w : World σ) :
    Option (Option String × Addon × World σ) :=
  if !requiresReporting addon then
    some (none, addon, w)
  else
    match r.ocmClient with
    | none => some (none, addon, w)
    | some _ =>
      match addon.Status.UpgradePolicy with
      | none => reportUpgradeStarted r wide addon w
      | some st =>
        if st.Version = "" then
          match handleUnknownPreviousVersion r wide addon w with
          | none => none
          | some ((_, some err), a1, w1) =>
            some (some ("handling UpgradePolicy with unknown previous version: " ++ err),
              a1, w1)
          | some ((complete, none), a1, w1) =>
            if complete then some (none, a1, w1)
            else reportStaleOrCompleted r wide a1 w1
        else
          reportStaleOrCompleted r wide addon w

end addon

namespace addon

open addonsv1alpha1

/-- The world after one call to the external service: the service in the state the
call left it in, the call appended to the trace, and one more observation when a
recorder is configured. -/
def World.afterCall {σ : Type} (r : AddonReconciler σ) (w : World σ) (s1 : σ)
    (call : OcmCall) : World σ :=
  { service := s1
    calls := w.calls ++ [call]
    observations := if r.Recorder.isSome then w.observations + 1 else w.observations }

/-- A service without state whose calls all succeed; `getPolicy` answers `Completed`. -/
def completedService : ocm.Client Unit :=
  { GetUpgradePolicy := fun s _ => (({ Value := ocm.UpgradePolicyValue.Completed }, none), s)
    PatchUpgradePolicy := fun s _ => (({}, none), s) }

/-- A reconciler with the service `completedService` as gateway and no recorder. -/
def reconcilerWithGateway : AddonReconciler Unit :=
  { ocmClient := some completedService, Recorder := none }

/-- A reconciler whose gateway is not configured. -/
def reconcilerWithoutGateway : AddonReconciler Unit :=
  { ocmClient := none, Recorder := none }

/-- The world before any call has been issued. -/
def emptyWorld : World Unit :=
  { service := (), calls := [], observations := 0 }

/-- A table for `strconv.IsPrint` that declares no rune above U+00FF printable; the
strings of the examples below are ASCII and never consult it. -/
def noWide : Char → Bool :=
  fun _ => false

/-- An addon at version `v` with policy reference `p1`, the given availability and the
given recorded status. -/
def exampleAddon (v : String) (available : Bool) (st : Option AddonUpgradePolicyStatus) :
    Addon :=
  { Spec := { Version := v, UpgradePolicy := some { ID := "p1" } }
    Status := { Available := available, UpgradePolicy := st } }

/-- An addon at version `1.2.0` whose policy reference is unset. -/
def addonWithoutRef : Addon :=
  { Spec := { Version := "1.2.0", UpgradePolicy := none }
    Status := { Available := true, UpgradePolicy := none } }

/-- Whether the call is a `patchPolicy`. -/
def OcmCall.isPatch : OcmCall → Bool
  | OcmCall.get _ _ _ => false
  | OcmCall.patch _ _ _ => true

/-- Whether the call is a `getPolicy`. -/
def OcmCall.isGet : OcmCall → Bool
  | OcmCall.get _ _ _ => true
  | OcmCall.patch _ _ _ => false

/-- Whether the call is a `patchPolicy` requesting the given value. -/
def OcmCall.isPatchOf (v : ocm.UpgradePolicyValue) : OcmCall → Bool
  | OcmCall.get _ _ _ => false
  | OcmCall.patch req _ _ => decide (req.Value = v)

/-- Consecutive passes of the handler over one addon, as the outer reconciliation loop
produces them when nothing else touches the addon: each pass starts from the addon and
the world that the pass before it left behind. The error of a pass is not kept (the
loop requeues the addon); a panic ends the run. -/
def runPasses {σ : Type} (r : AddonReconciler σ) (wide : Char → Bool) :
    Nat → Addon → World σ → Option (Addon × World σ)
  | 0, addon, w => some (addon, w)
  | n + 1, addon, w =>
    match handleUpgradePolicyStatusReporting r wide addon w with
    | none => none
    | some (_, addon1, w1) => runPasses r wide n addon1 w1

/-- A service without state whose calls all succeed; `getPolicy` answers `Started`. -/
def startedService : ocm.Client Unit :=
  { GetUpgradePolicy := fun s _ => (({ Value := ocm.UpgradePolicyValue.Started }, none), s)
    PatchUpgradePolicy := fun s _ => (({}, none), s) }

/-- A reconciler with the service `completedService` as gateway and a recorder. -/
def reconcilerWithRecorder : AddonReconciler Unit :=
  { ocmClient := some completedService, Recorder := some {} }

/-- A reconciler with the service `startedService` as gateway and no recorder. -/
def reconcilerWithStartedService : AddonReconciler Unit :=
  { ocmClient := some startedService, Recorder := none }

end addon

namespace operatorsv1

/-- Modelled from the spec: the spec part of a grouping resource. `TargetNamespaces` is the
ordered-sequence-or-absent field `targetNamespaces` (`none` is the nil slice); the Go type
has further fields, which are not part of the data model of the spec. -/
structure OperatorGroupSpec where
  TargetNamespaces : Option (List String) := none
  deriving DecidableEq

/-- Modelled from the spec: the grouping resource
`{name, namespace, targetNamespaces, ownerRef}`. `OwnerRef` is the name of the addon that
owns the object, `none` for an object without owner. -/
structure OperatorGroup where
  Name : String
  Namespace : String
  Spec : OperatorGroupSpec := {}
  OwnerRef : Option String := none
  deriving DecidableEq

end operatorsv1

namespace client

/-- Modelled from the spec: the key of `get(key)`, name and namespace of the object. -/
structure ObjectKey where
  Name : String
  Namespace : String
  deriving DecidableEq

/-- Modelled from the spec: the three outcomes of `get(key)`:
`object | not-found-fault | other-fault`. -/
inductive GetResult where
  | found (obj : operatorsv1.OperatorGroup)
  | notFound
  | fault (err : String)
  deriving DecidableEq

/-- Modelled from the spec: the cluster-resource store as the reconciler consumes it,
`get(key)`, `create(object) → fault?` and `update(object) → fault?`. Each call reads the
state `τ` of the store and returns its outcome and the state the store is left in. -/
structure Client (τ : Type) where
  Get : τ → ObjectKey → GetResult × τ
  Create : τ → operatorsv1.OperatorGroup → Option String × τ
  Update : τ → operatorsv1.OperatorGroup → Option String × τ

end client

namespace addon

open addonsv1alpha1

/-- One call issued to the cluster-resource store, with its argument and its outcome. -/
inductive StoreCall where
  | get (key : client.ObjectKey) (res : client.GetResult)
  | create (obj : operatorsv1.OperatorGroup) (err : Option String)
  | update (obj : operatorsv1.OperatorGroup) (err : Option String)
  deriving DecidableEq

/-- Whether the call writes to the store (a create or an update). -/
def StoreCall.isWrite : StoreCall → Bool
  | StoreCall.get _ _ => false
  | StoreCall.create _ _ => true
  | StoreCall.update _ _ => true

/-- The state of the cluster-resource store and the trace of the calls issued to it
(oldest first). -/
structure Cluster (τ : Type) where
  store : τ
  calls : List StoreCall
  deriving DecidableEq

/-- Modelled from the spec: the result `{stop, continue}` of a phase; the test names the
two values `resultStop` and `resultNil`. -/
inductive requeueResult where
  | resultNil
  | resultStop
  deriving DecidableEq

/-- Modelled from the spec: the reconciler of the grouping resource holds the handle on the
cluster-resource store (the field `client` of the test). -/
structure olmReconciler (τ : Type) where
  client : client.Client τ

/-- Modelled from the spec: steps 1 and 2 of `ensure`, the validation of the install
configuration against its declared variant and the computation of
`(targetNamespace, targetNamespaces)`. *OwnNamespace* and *AllNamespaces* both require
a non-absent sub-config with non-empty namespace; any other tag, or a required sub-config
that is absent or has an empty namespace, is a configuration error (`none`). -/
def installTarget (install : AddonInstallSpec) : Option (String × Option (List String)) :=
  match install.Type_ with
  | AddonInstallType.OLMOwnNamespace =>
    match install.OLMOwnNamespace with
    | none => none
    | some cfg => if cfg.Namespace = "" then none else some (cfg.Namespace, some [cfg.Namespace])
  | AddonInstallType.OLMAllNamespaces =>
    match install.OLMAllNamespaces with
    | none => none
    | some cfg => if cfg.Namespace = "" then none else some (cfg.Namespace, none)
  | AddonInstallType.other _ => none

/-- Modelled from the spec: the merge step of `reconcile`, the desired `targetNamespaces` and
owner reference written into a copy of the existing object. -/
def mergeOperatorGroup (desired existing : operatorsv1.OperatorGroup) :
    operatorsv1.OperatorGroup :=
  { existing with
    Spec := { existing.Spec with TargetNamespaces := desired.Spec.TargetNamespaces }
    OwnerRef := desired.OwnerRef }

/-- Modelled from the spec: the method `reconcileOperatorGroup` is not among the sources (only
its test is). With the signature the test calls, it is given the desired object and
fetches the existing one by the name and namespace of the desired one. Not found: the
desired object is created. Found: the desired `targetNamespaces` and owner reference are
merged into a copy of the existing object, and an update is issued only if the merged
object differs from the existing one. A fetch fault other than not-found, a create fault
and an update fault are returned to the caller. -/
def reconcileOperatorGroup {τ : Type} (r : olmReconciler τ)
    (operatorGroup : operatorsv1.OperatorGroup) (w : Cluster τ) : Option String × Cluster τ :=
  let key : client.ObjectKey :=
    { Name := operatorGroup.Name, Namespace := operatorGroup.Namespace }
  let fetched := r.client.Get w.store key
  let w1 : Cluster τ := { store := fetched.2, calls := w.calls ++ [StoreCall.get key fetched.1] }
  match fetched.1 with
  | client.GetResult.notFound =>
    let created := r.client.Create w1.store operatorGroup
    (created.1,
      { store := created.2, calls := w1.calls ++ [StoreCall.create operatorGroup created.1] })
  | client.GetResult.fault err => (some err, w1)
  | client.GetResult.found existing =>
    let merged := mergeOperatorGroup operatorGroup existing
    if merged = existing then (none, w1)
    else
      let updated := r.client.Update w1.store merged
      (updated.1,
        { store := updated.2, calls := w1.calls ++ [StoreCall.update merged updated.1] })

/-- Modelled from the spec: the method `ensureOperatorGroup` is not among the sources (only
its test is). A configuration error sets the condition `Available` to false with the
reason `AddonReasonConfigError` and returns `resultStop` without a fault and without
contacting the store. Otherwise the desired object
`{name: defaultName, namespace: targetNamespace, targetNamespaces, ownerRef: addon}` is
built and step 3 (fetch; not found: create; found: converge) is carried out by
`reconcileOperatorGroup`; the result is `resultNil` together with the fault, if any. The
fixed default name, a constant that is not among the sources, is the parameter
`DefaultOperatorGroupName`. -/
def ensureOperatorGroup {τ : Type} (DefaultOperatorGroupName : String) (r : olmReconciler τ)
    (addon : Addon) (w : Cluster τ) : (requeueResult × Option String) × Addon × Cluster τ :=
  match installTarget addon.Spec.Install with
  | none =>
    ((requeueResult.resultStop, none),
      { addon with Status := { addon.Status with
          Available := false
          AvailableReason := some AddonReasonConfigError } },
      w)
  | some (targetNamespace, targetNamespaces) =>
    let desired : operatorsv1.OperatorGroup :=
      { Name := DefaultOperatorGroupName
        Namespace := targetNamespace
        Spec := { TargetNamespaces := targetNamespaces }
        OwnerRef := some addon.Name }
    let out := reconcileOperatorGroup r desired w
    ((requeueResult.resultNil, out.1), addon, out.2)

/-- A store that holds a list of grouping resources: `get` looks an object up by name and
namespace, `create` adds the object, `update` replaces the object of the same name and
namespace; no call fails. -/
def memoryStore : client.Client (List operatorsv1.OperatorGroup) :=
  { Get := fun objs key =>
      (match objs.find? (fun o => decide (o.Name = key.Name ∧ o.Namespace = key.Namespace)) with
        | some o => client.GetResult.found o
        | none => client.GetResult.notFound,
        objs)
    Create := fun objs obj => (none, objs ++ [obj])
    Update := fun objs obj =>
      (none,
        objs.map (fun o =>
          if o.Name = obj.Name ∧ o.Namespace = obj.Namespace then obj else o)) }

/-- A store that holds nothing and refuses every create. -/
def refusingStore : client.Client Unit :=
  { Get := fun s _ => (client.GetResult.notFound, s)
    Create := fun s _ => (some "create refused", s)
    Update := fun s _ => (some "update refused", s) }

/-- An addon named `addon-1` at the given install configuration. -/
def installAddon (install : AddonInstallSpec) : Addon :=
  { Spec := { Version := "", UpgradePolicy := none, Install := install }
    Status := { Available := true, UpgradePolicy := none }
    Name := "addon-1" }

/-- The install configuration *OwnNamespace* with namespace `addon-system`. -/
def ownNamespaceInstall : AddonInstallSpec :=
  { Type_ := AddonInstallType.OLMOwnNamespace
    OLMOwnNamespace := some { CatalogSourceImage := "quay.io/osd-addons/test", Namespace := "addon-system" } }

/-- The install configuration *AllNamespaces* with namespace `addon-system`. -/
def allNamespacesInstall : AddonInstallSpec :=
  { Type_ := AddonInstallType.OLMAllNamespaces
    OLMAllNamespaces := some { CatalogSourceImage := "quay.io/osd-addons/test", Namespace := "addon-system" } }

end addon

namespace addon

open addonsv1alpha1

/-- C1: `requiresReporting` holds exactly when `spec.version` is non-empty, the upgrade
policy reference is set, and the status does not record `Completed` for the version of
the spec; an addon without a recorded status never records it. -/
theorem requiresReporting_iff (addon : Addon) :
    requiresReporting addon = true ↔
      addon.Spec.Version ≠ "" ∧ addon.Spec.UpgradePolicy ≠ none ∧
        ¬ ∃ st, addon.Status.UpgradePolicy = some st ∧
          st.Value = AddonUpgradePolicyValue.Completed ∧ st.Version = addon.Spec.Version := by
  unfold requiresReporting Addon.UpgradeCompleteForCurrentVersion
  cases hp : addon.Spec.UpgradePolicy <;> cases hs : addon.Status.UpgradePolicy <;> simp
  intro _
  tauto

end addon

namespace addon

open addonsv1alpha1

theorem requiresReporting_policy {addon : Addon} (h : requiresReporting addon = true) :
    ∃ p, addon.Spec.UpgradePolicy = some p := by
  unfold requiresReporting at h
  cases hp : addon.Spec.UpgradePolicy with
  | none => simp [hp] at h
  | some p => exact ⟨p, rfl⟩

theorem requiresReporting_version {addon : Addon} (h : requiresReporting addon = true) :
    addon.Spec.Version ≠ "" := by
  unfold requiresReporting at h
  simp at h
  exact h.1.1

theorem handlePatchUpgradePolicy_eq {σ : Type} (r : AddonReconciler σ) (c : ocm.Client σ)
    (hc : r.ocmClient = some c) (req : ocm.UpgradePolicyPatchRequest) (w : World σ) :
    handlePatchUpgradePolicy r req w =
      some ((c.PatchUpgradePolicy w.service req).1.2,
        w.afterCall r (c.PatchUpgradePolicy w.service req).2
          (OcmCall.patch req (c.PatchUpgradePolicy w.service req).1.1
            (c.PatchUpgradePolicy w.service req).1.2)) := by
  unfold handlePatchUpgradePolicy recordOCMRequestDuration World.afterCall
  cases hr : r.Recorder <;> simp [hc]

theorem handleGetUpgradePolicyState_eq {σ : Type} (r : AddonReconciler σ) (c : ocm.Client σ)
    (hc : r.ocmClient = some c) (req : ocm.UpgradePolicyGetRequest) (w : World σ) :
    handleGetUpgradePolicyState r req w =
      some ((c.GetUpgradePolicy w.service req).1,
        w.afterCall r (c.GetUpgradePolicy w.service req).2
          (OcmCall.get req (c.GetUpgradePolicy w.service req).1.1
            (c.GetUpgradePolicy w.service req).1.2)) := by
  unfold handleGetUpgradePolicyState recordOCMRequestDuration World.afterCall
  cases hr : r.Recorder <;> simp [hc]

theorem reportUpgradeStarted_eq {σ : Type} (r : AddonReconciler σ) (c : ocm.Client σ)
    (hc : r.ocmClient = some c) (wide : Char → Bool) (addon : Addon) (p : AddonUpgradePolicy)
    (hp : addon.Spec.UpgradePolicy = some p) (w : World σ)
    (req : ocm.UpgradePolicyPatchRequest)
    (hreq : req =
      { ID := p.ID
        Value := ocm.UpgradePolicyValue.Started
        Description :=
          "Upgrading addon to version " ++ strconv.Quote wide addon.Spec.Version ++ "." }) :
    reportUpgradeStarted r wide addon w =
      some (
        ((c.PatchUpgradePolicy w.service req).1.2).map (fun err =>
          "patching UpgradePolicy " ++ strconv.Quote wide p.ID ++ " at version "
            ++ strconv.Quote wide addon.Spec.Version ++ " as 'Started': " ++ err),
        (match (c.PatchUpgradePolicy w.service req).1.2 with
          | some _ => addon
          | none => addon.SetUpgradePolicyStatus AddonUpgradePolicyValue.Started),
        w.afterCall r (c.PatchUpgradePolicy w.service req).2
          (OcmCall.patch req (c.PatchUpgradePolicy w.service req).1.1
            (c.PatchUpgradePolicy w.service req).1.2)) := by
  subst hreq
  unfold reportUpgradeStarted
  simp only [hp, handlePatchUpgradePolicy_eq r c hc]
  cases (c.PatchUpgradePolicy w.service _).1.2 <;> rfl

theorem reportUpgradeCompleted_eq {σ : Type} (r : AddonReconciler σ) (c : ocm.Client σ)
    (hc : r.ocmClient = some c) (wide : Char → Bool) (addon : Addon) (p : AddonUpgradePolicy)
    (hp : addon.Spec.UpgradePolicy = some p) (w : World σ)
    (req : ocm.UpgradePolicyPatchRequest)
    (hreq : req =
      { ID := p.ID
        Value := ocm.UpgradePolicyValue.Completed
        Description :=
          "Addon was healthy at least once at version " ++ strconv.Quote wide addon.Spec.Version ++ "." }) :
    reportUpgradeCompleted r wide addon w =
      some (
        ((c.PatchUpgradePolicy w.service req).1.2).map (fun err =>
          "patching UpgradePolicy " ++ strconv.Quote wide p.ID ++ " at version "
            ++ strconv.Quote wide addon.Spec.Version ++ " to 'Completed': " ++ err),
        (match (c.PatchUpgradePolicy w.service req).1.2 with
          | some _ => addon
          | none => addon.SetUpgradePolicyStatus AddonUpgradePolicyValue.Completed),
        w.afterCall r (c.PatchUpgradePolicy w.service req).2
          (OcmCall.patch req (c.PatchUpgradePolicy w.service req).1.1
            (c.PatchUpgradePolicy w.service req).1.2)) := by
  subst hreq
  unfold reportUpgradeCompleted
  simp only [hp, handlePatchUpgradePolicy_eq r c hc]
  cases (c.PatchUpgradePolicy w.service _).1.2 <;> rfl

theorem handleUnknownPreviousVersion_eq {σ : Type} (r : AddonReconciler σ) (c : ocm.Client σ)
    (hc : r.ocmClient = some c) (wide : Char → Bool) (addon : Addon) (p : AddonUpgradePolicy)
    (hp : addon.Spec.UpgradePolicy = some p) (w : World σ) :
    handleUnknownPreviousVersion r wide addon w =
      some (
        (decide ((c.GetUpgradePolicy w.service { ID := p.ID }).1.2 = none ∧
            (c.GetUpgradePolicy w.service { ID := p.ID }).1.1.Value
              = ocm.UpgradePolicyValue.Completed),
          ((c.GetUpgradePolicy w.service { ID := p.ID }).1.2).map (fun err =>
            "getting UpgradePolicy " ++ strconv.Quote wide p.ID ++ " state: " ++ err)),
        (if (c.GetUpgradePolicy w.service { ID := p.ID }).1.2 = none ∧
            (c.GetUpgradePolicy w.service { ID := p.ID }).1.1.Value
              = ocm.UpgradePolicyValue.Completed
          then addon.SetUpgradePolicyStatus AddonUpgradePolicyValue.Completed
          else addon),
        w.afterCall r (c.GetUpgradePolicy w.service { ID := p.ID }).2
          (OcmCall.get { ID := p.ID } (c.GetUpgradePolicy w.service { ID := p.ID }).1.1
            (c.GetUpgradePolicy w.service { ID := p.ID }).1.2)) := by
  unfold handleUnknownPreviousVersion
  simp only [hp, handleGetUpgradePolicyState_eq r c hc]
  rcases hg : (c.GetUpgradePolicy w.service { ID := p.ID }).1 with ⟨res, _ | err⟩
  · by_cases hv : res.Value = ocm.UpgradePolicyValue.Completed <;> simp [hv]
  · simp

/-- C2: when `requiresReporting` is false, and in particular whenever the policy reference of
the spec is unset, the handler returns no error and leaves the addon and the world
(service state, trace of calls, observations) exactly as they were: no `getPolicy` and
no `patchPolicy` call is issued. -/
theorem handle_noop_when_reporting_not_required {σ : Type} (r : AddonReconciler σ)
    (wide : Char → Bool) (addon : Addon) (w : World σ) :
    (requiresReporting addon = false →
      handleUpgradePolicyStatusReporting r wide addon w = some (none, addon, w)) ∧
    (addon.Spec.UpgradePolicy = none →
      requiresReporting addon = false ∧
        handleUpgradePolicyStatusReporting r wide addon w = some (none, addon, w)) := by
  have key : requiresReporting addon = false →
      handleUpgradePolicyStatusReporting r wide addon w = some (none, addon, w) := by
    intro h
    unfold handleUpgradePolicyStatusReporting
    simp [h]
  refine ⟨key, fun hp => ?_⟩
  have hfalse : requiresReporting addon = false := by
    unfold requiresReporting
    simp [hp]
  exact ⟨hfalse, key hfalse⟩

/-- Witness for C2: an available addon at version `1.2.0` without policy reference, a
configured gateway. -/
theorem handle_noop_when_reporting_not_required_witness :
    addonWithoutRef.Spec.UpgradePolicy = none ∧
      requiresReporting addonWithoutRef = false ∧
      handleUpgradePolicyStatusReporting reconcilerWithGateway noWide addonWithoutRef emptyWorld
        = some (none, addonWithoutRef, emptyWorld) :=
  ⟨rfl,
    (handle_noop_when_reporting_not_required reconcilerWithGateway noWide addonWithoutRef
      emptyWorld).2 rfl⟩

/-- C3: reporting required, gateway configured, no status recorded: the pass issues exactly
one call, a patch with the id of the policy reference, value `Started` and the description
for `spec.version`, and no `getPolicy`; when that call succeeds the handler returns no
error and the status becomes `{version: spec.version, value: Started}`. -/
theorem handle_reports_started_when_status_absent {σ : Type} (r : AddonReconciler σ)
    (c : ocm.Client σ) (wide : Char → Bool) (addon : Addon) (w : World σ)
    (hreq : requiresReporting addon = true) (hc : r.ocmClient = some c)
    (hs : addon.Status.UpgradePolicy = none) :
    ∃ p req err addon1 w1,
      addon.Spec.UpgradePolicy = some p ∧
      req =
        { ID := p.ID
          Value := ocm.UpgradePolicyValue.Started
          Description :=
            "Upgrading addon to version " ++ strconv.Quote wide addon.Spec.Version ++ "." } ∧
      handleUpgradePolicyStatusReporting r wide addon w = some (err, addon1, w1) ∧
      w1.calls = w.calls ++ [OcmCall.patch req (c.PatchUpgradePolicy w.service req).1.1
        (c.PatchUpgradePolicy w.service req).1.2] ∧
      w1.service = (c.PatchUpgradePolicy w.service req).2 ∧
      ((c.PatchUpgradePolicy w.service req).1.2 = none →
        err = none ∧ addon1.Spec = addon.Spec ∧
          addon1.Status.Available = addon.Status.Available ∧
          addon1.Status.UpgradePolicy =
            some { Version := addon.Spec.Version, Value := AddonUpgradePolicyValue.Started }) := by
  obtain ⟨p, hp⟩ := requiresReporting_policy hreq
  have hrun : handleUpgradePolicyStatusReporting r wide addon w
      = reportUpgradeStarted r wide addon w := by
    unfold handleUpgradePolicyStatusReporting
    simp [hreq, hc, hs]
  rw [hrun, reportUpgradeStarted_eq r c hc wide addon p hp w _ rfl]
  refine ⟨p, _, _, _, _, hp, rfl, rfl, rfl, rfl, ?_⟩
  intro hok
  simp [hok, Addon.SetUpgradePolicyStatus]

/-- Witness for C3: `spec.version = "1.2.0"`, no status recorded; the one call is the
`Started` patch and the status becomes `{version: "1.2.0", value: Started}`. -/
theorem handle_reports_started_when_status_absent_witness :
    requiresReporting (exampleAddon "1.2.0" false none) = true ∧
      handleUpgradePolicyStatusReporting reconcilerWithGateway noWide
          (exampleAddon "1.2.0" false none) emptyWorld
        = some (none,
            exampleAddon "1.2.0" false
              (some { Version := "1.2.0", Value := AddonUpgradePolicyValue.Started }),
            { service := ()
              calls := [OcmCall.patch
                { ID := "p1"
                  Value := ocm.UpgradePolicyValue.Started
                  Description := "Upgrading addon to version \"1.2.0\"." } {} none]
              observations := 0 }) ∧
      ∃ p req err addon1 w1,
        (exampleAddon "1.2.0" false none).Spec.UpgradePolicy = some p ∧
        req =
          { ID := p.ID
            Value := ocm.UpgradePolicyValue.Started
            Description :=
              "Upgrading addon to version "
                ++ strconv.Quote noWide (exampleAddon "1.2.0" false none).Spec.Version ++ "." } ∧
        handleUpgradePolicyStatusReporting reconcilerWithGateway noWide
          (exampleAddon "1.2.0" false none) emptyWorld = some (err, addon1, w1) ∧
        w1.calls = emptyWorld.calls ++
          [OcmCall.patch req (completedService.PatchUpgradePolicy emptyWorld.service req).1.1
            (completedService.PatchUpgradePolicy emptyWorld.service req).1.2] ∧
        w1.service = (completedService.PatchUpgradePolicy emptyWorld.service req).2 ∧
        ((completedService.PatchUpgradePolicy emptyWorld.service req).1.2 = none →
          err = none ∧ addon1.Spec = (exampleAddon "1.2.0" false none).Spec ∧
            addon1.Status.Available = (exampleAddon "1.2.0" false none).Status.Available ∧
            addon1.Status.UpgradePolicy =
              some { Version := (exampleAddon "1.2.0" false none).Spec.Version,
                     Value := AddonUpgradePolicyValue.Started }) :=
  ⟨by decide, by decide,
    handle_reports_started_when_status_absent reconcilerWithGateway completedService noWide
      (exampleAddon "1.2.0" false none) emptyWorld (by decide) rfl rfl⟩

/-- C4: reporting required, gateway configured, status recorded with the empty version: when
`getPolicy` for the id of the policy reference succeeds with value `Completed`, the handler
returns no error, the status becomes `{version: spec.version, value: Completed}`, and the
only call issued in the pass is that `getPolicy` (no patch). -/
theorem handle_records_completed_when_version_unknown {σ : Type} (r : AddonReconciler σ)
    (c : ocm.Client σ) (wide : Char → Bool) (addon : Addon) (w : World σ)
    (p : AddonUpgradePolicy) (st : AddonUpgradePolicyStatus)
    (hreq : requiresReporting addon = true) (hc : r.ocmClient = some c)
    (hp : addon.Spec.UpgradePolicy = some p)
    (hs : addon.Status.UpgradePolicy = some st) (hv : st.Version = "")
    (hget : (c.GetUpgradePolicy w.service { ID := p.ID }).1
      = ({ Value := ocm.UpgradePolicyValue.Completed }, none)) :
    ∃ addon1 w1,
      handleUpgradePolicyStatusReporting r wide addon w = some (none, addon1, w1) ∧
      addon1.Spec = addon.Spec ∧
      addon1.Status.Available = addon.Status.Available ∧
      addon1.Status.UpgradePolicy =
        some { Version := addon.Spec.Version, Value := AddonUpgradePolicyValue.Completed } ∧
      w1.calls = w.calls ++
        [OcmCall.get { ID := p.ID } { Value := ocm.UpgradePolicyValue.Completed } none] ∧
      w1.service = (c.GetUpgradePolicy w.service { ID := p.ID }).2 := by
  have hrun : handleUpgradePolicyStatusReporting r wide addon w
      = some (none, addon.SetUpgradePolicyStatus AddonUpgradePolicyValue.Completed,
          w.afterCall r (c.GetUpgradePolicy w.service { ID := p.ID }).2
            (OcmCall.get { ID := p.ID } { Value := ocm.UpgradePolicyValue.Completed } none)) := by
    unfold handleUpgradePolicyStatusReporting
    simp [hreq, hc, hs, hv, handleUnknownPreviousVersion_eq r c hc wide addon p hp, hget]
  rw [hrun]
  exact ⟨_, _, rfl, rfl, rfl, rfl, rfl, rfl⟩

/-- Witness for C4: the recorded version is empty and the service answers `Completed`. -/
theorem handle_records_completed_when_version_unknown_witness :
    handleUpgradePolicyStatusReporting reconcilerWithGateway noWide
        (exampleAddon "1.2.0" false
          (some { Version := "", Value := AddonUpgradePolicyValue.Started })) emptyWorld
      = some (none,
          exampleAddon "1.2.0" false
            (some { Version := "1.2.0", Value := AddonUpgradePolicyValue.Completed }),
          { service := ()
            calls := [OcmCall.get { ID := "p1" }
              { Value := ocm.UpgradePolicyValue.Completed } none]
            observations := 0 }) ∧
    ∃ addon1 w1,
      handleUpgradePolicyStatusReporting reconcilerWithGateway noWide
        (exampleAddon "1.2.0" false
          (some { Version := "", Value := AddonUpgradePolicyValue.Started })) emptyWorld
        = some (none, addon1, w1) ∧
      addon1.Spec = (exampleAddon "1.2.0" false
          (some { Version := "", Value := AddonUpgradePolicyValue.Started })).Spec ∧
      addon1.Status.Available = (exampleAddon "1.2.0" false
          (some { Version := "", Value := AddonUpgradePolicyValue.Started })).Status.Available ∧
      addon1.Status.UpgradePolicy =
        some { Version := (exampleAddon "1.2.0" false
                  (some { Version := "", Value := AddonUpgradePolicyValue.Started })).Spec.Version,
               Value := AddonUpgradePolicyValue.Completed } ∧
      w1.calls = emptyWorld.calls ++
        [OcmCall.get { ID := "p1" } { Value := ocm.UpgradePolicyValue.Completed } none] ∧
      w1.service = (completedService.GetUpgradePolicy emptyWorld.service { ID := "p1" }).2 :=
  ⟨by decide,
    handle_records_completed_when_version_unknown reconcilerWithGateway completedService noWide
      (exampleAddon "1.2.0" false
        (some { Version := "", Value := AddonUpgradePolicyValue.Started })) emptyWorld
      { ID := "p1" } { Version := "", Value := AddonUpgradePolicyValue.Started }
      (by decide) rfl rfl rfl rfl rfl⟩

/-- C5: reporting required, gateway configured, status recorded with a non-empty version
other than `spec.version`: whatever the availability and the recorded value, the pass
issues exactly one call, the `Started` patch for `spec.version`, and no `getPolicy`; when
the call succeeds the handler returns no error and the status becomes
`{version: spec.version, value: Started}`. -/
theorem handle_reports_started_when_version_stale {σ : Type} (r : AddonReconciler σ)
    (c : ocm.Client σ) (wide : Char → Bool) (addon : Addon) (w : World σ)
    (st : AddonUpgradePolicyStatus)
    (hreq : requiresReporting addon = true) (hc : r.ocmClient = some c)
    (hs : addon.Status.UpgradePolicy = some st) (hne : st.Version ≠ "")
    (hstale : st.Version ≠ addon.Spec.Version) :
    ∃ p req err addon1 w1,
      addon.Spec.UpgradePolicy = some p ∧
      req =
        { ID := p.ID
          Value := ocm.UpgradePolicyValue.Started
          Description :=
            "Upgrading addon to version " ++ strconv.Quote wide addon.Spec.Version ++ "." } ∧
      handleUpgradePolicyStatusReporting r wide addon w = some (err, addon1, w1) ∧
      w1.calls = w.calls ++ [OcmCall.patch req (c.PatchUpgradePolicy w.service req).1.1
        (c.PatchUpgradePolicy w.service req).1.2] ∧
      w1.service = (c.PatchUpgradePolicy w.service req).2 ∧
      ((c.PatchUpgradePolicy w.service req).1.2 = none →
        err = none ∧ addon1.Spec = addon.Spec ∧
          addon1.Status.Available = addon.Status.Available ∧
          addon1.Status.UpgradePolicy =
            some { Version := addon.Spec.Version, Value := AddonUpgradePolicyValue.Started }) := by
  obtain ⟨p, hp⟩ := requiresReporting_policy hreq
  have hrun : handleUpgradePolicyStatusReporting r wide addon w
      = reportUpgradeStarted r wide addon w := by
    unfold handleUpgradePolicyStatusReporting reportStaleOrCompleted
    simp [hreq, hc, hs, hne, hstale]
  rw [hrun, reportUpgradeStarted_eq r c hc wide addon p hp w _ rfl]
  refine ⟨p, _, _, _, _, hp, rfl, rfl, rfl, rfl, ?_⟩
  intro hok
  simp [hok, Addon.SetUpgradePolicyStatus]

/-- Witness for C5: recorded version `1.0.0` with value `Completed`, `spec.version = "1.1.0"`,
addon available. -/
theorem handle_reports_started_when_version_stale_witness :
    handleUpgradePolicyStatusReporting reconcilerWithGateway noWide
        (exampleAddon "1.1.0" true
          (some { Version := "1.0.0", Value := AddonUpgradePolicyValue.Completed })) emptyWorld
      = some (none,
          exampleAddon "1.1.0" true
            (some { Version := "1.1.0", Value := AddonUpgradePolicyValue.Started }),
          { service := ()
            calls := [OcmCall.patch
              { ID := "p1"
                Value := ocm.UpgradePolicyValue.Started
                Description := "Upgrading addon to version \"1.1.0\"." } {} none]
            observations := 0 }) ∧
    ∃ p req err addon1 w1,
      (exampleAddon "1.1.0" true
        (some { Version := "1.0.0", Value := AddonUpgradePolicyValue.Completed })).Spec.UpgradePolicy
        = some p ∧
      req =
        { ID := p.ID
          Value := ocm.UpgradePolicyValue.Started
          Description := "Upgrading addon to version " ++ strconv.Quote noWide "1.1.0" ++ "." } ∧
      handleUpgradePolicyStatusReporting reconcilerWithGateway noWide
        (exampleAddon "1.1.0" true
          (some { Version := "1.0.0", Value := AddonUpgradePolicyValue.Completed })) emptyWorld
        = some (err, addon1, w1) ∧
      w1.calls = emptyWorld.calls ++
        [OcmCall.patch req (completedService.PatchUpgradePolicy emptyWorld.service req).1.1
          (completedService.PatchUpgradePolicy emptyWorld.service req).1.2] ∧
      w1.service = (completedService.PatchUpgradePolicy emptyWorld.service req).2 ∧
      ((completedService.PatchUpgradePolicy emptyWorld.service req).1.2 = none →
        err = none ∧
          addon1.Spec = (exampleAddon "1.1.0" true
            (some { Version := "1.0.0", Value := AddonUpgradePolicyValue.Completed })).Spec ∧
          addon1.Status.Available = true ∧
          addon1.Status.UpgradePolicy =
            some { Version := "1.1.0", Value := AddonUpgradePolicyValue.Started }) :=
  ⟨by decide,
    handle_reports_started_when_version_stale reconcilerWithGateway completedService noWide
      (exampleAddon "1.1.0" true
        (some { Version := "1.0.0", Value := AddonUpgradePolicyValue.Completed })) emptyWorld
      { Version := "1.0.0", Value := AddonUpgradePolicyValue.Completed }
      (by decide) rfl rfl (by decide) (by decide)⟩

/-- C6: reporting required, gateway configured, recorded version equal to `spec.version`,
addon available: the pass issues exactly one call, the `Completed` patch for `spec.version`,
and no `getPolicy`; when the call succeeds the handler returns no error and the status
becomes `{version: spec.version, value: Completed}`. -/
theorem handle_reports_completed_when_available {σ : Type} (r : AddonReconciler σ)
    (c : ocm.Client σ) (wide : Char → Bool) (addon : Addon) (w : World σ)
    (st : AddonUpgradePolicyStatus)
    (hreq : requiresReporting addon = true) (hc : r.ocmClient = some c)
    (hs : addon.Status.UpgradePolicy = some st) (hv : st.Version = addon.Spec.Version)
    (ha : addon.IsAvailable = true) :
    ∃ p req err addon1 w1,
      addon.Spec.UpgradePolicy = some p ∧
      req =
        { ID := p.ID
          Value := ocm.UpgradePolicyValue.Completed
          Description :=
            "Addon was healthy at least once at version "
              ++ strconv.Quote wide addon.Spec.Version ++ "." } ∧
      handleUpgradePolicyStatusReporting r wide addon w = some (err, addon1, w1) ∧
      w1.calls = w.calls ++ [OcmCall.patch req (c.PatchUpgradePolicy w.service req).1.1
        (c.PatchUpgradePolicy w.service req).1.2] ∧
      w1.service = (c.PatchUpgradePolicy w.service req).2 ∧
      ((c.PatchUpgradePolicy w.service req).1.2 = none →
        err = none ∧ addon1.Spec = addon.Spec ∧
          addon1.Status.Available = addon.Status.Available ∧
          addon1.Status.UpgradePolicy =
            some { Version := addon.Spec.Version,
                   Value := AddonUpgradePolicyValue.Completed }) := by
  obtain ⟨p, hp⟩ := requiresReporting_policy hreq
  have hne : st.Version ≠ "" := hv ▸ requiresReporting_version hreq
  have hrun : handleUpgradePolicyStatusReporting r wide addon w
      = reportUpgradeCompleted r wide addon w := by
    unfold handleUpgradePolicyStatusReporting reportStaleOrCompleted
    simp [hreq, hc, hs, hne, hv, ha, requiresReporting_version hreq]
  rw [hrun, reportUpgradeCompleted_eq r c hc wide addon p hp w _ rfl]
  refine ⟨p, _, _, _, _, hp, rfl, rfl, rfl, rfl, ?_⟩
  intro hok
  simp [hok, Addon.SetUpgradePolicyStatus]

/-- Witness for C6: recorded `{version: "1.2.0", value: Started}`, `spec.version = "1.2.0"`,
addon available. -/
theorem handle_reports_completed_when_available_witness :
    handleUpgradePolicyStatusReporting reconcilerWithGateway noWide
        (exampleAddon "1.2.0" true
          (some { Version := "1.2.0", Value := AddonUpgradePolicyValue.Started })) emptyWorld
      = some (none,
          exampleAddon "1.2.0" true
            (some { Version := "1.2.0", Value := AddonUpgradePolicyValue.Completed }),
          { service := ()
            calls := [OcmCall.patch
              { ID := "p1"
                Value := ocm.UpgradePolicyValue.Completed
                Description := "Addon was healthy at least once at version \"1.2.0\"." }
              {} none]
            observations := 0 }) ∧
    ∃ p req err addon1 w1,
      (exampleAddon "1.2.0" true
        (some { Version := "1.2.0", Value := AddonUpgradePolicyValue.Started })).Spec.UpgradePolicy
        = some p ∧
      req =
        { ID := p.ID
          Value := ocm.UpgradePolicyValue.Completed
          Description :=
            "Addon was healthy at least once at version "
              ++ strconv.Quote noWide "1.2.0" ++ "." } ∧
      handleUpgradePolicyStatusReporting reconcilerWithGateway noWide
        (exampleAddon "1.2.0" true
          (some { Version := "1.2.0", Value := AddonUpgradePolicyValue.Started })) emptyWorld
        = some (err, addon1, w1) ∧
      w1.calls = emptyWorld.calls ++
        [OcmCall.patch req (completedService.PatchUpgradePolicy emptyWorld.service req).1.1
          (completedService.PatchUpgradePolicy emptyWorld.service req).1.2] ∧
      w1.service = (completedService.PatchUpgradePolicy emptyWorld.service req).2 ∧
      ((completedService.PatchUpgradePolicy emptyWorld.service req).1.2 = none →
        err = none ∧
          addon1.Spec = (exampleAddon "1.2.0" true
            (some { Version := "1.2.0", Value := AddonUpgradePolicyValue.Started })).Spec ∧
          addon1.Status.Available = true ∧
          addon1.Status.UpgradePolicy =
            some { Version := "1.2.0", Value := AddonUpgradePolicyValue.Completed }) :=
  ⟨by decide,
    handle_reports_completed_when_available reconcilerWithGateway completedService noWide
      (exampleAddon "1.2.0" true
        (some { Version := "1.2.0", Value := AddonUpgradePolicyValue.Started })) emptyWorld
      { Version := "1.2.0", Value := AddonUpgradePolicyValue.Started }
      (by decide) rfl rfl rfl rfl⟩

/-- C7: for every addon whose recorded version equals `spec.version` and which is not
available, with or without a gateway, the handler returns no error and leaves the addon
and the world (service state, trace of calls, observations) exactly as they were: no
`getPolicy` and no `patchPolicy` call is issued. -/
theorem handle_noop_when_current_and_not_available {σ : Type} (r : AddonReconciler σ)
    (wide : Char → Bool) (addon : Addon) (w : World σ) (st : AddonUpgradePolicyStatus)
    (hs : addon.Status.UpgradePolicy = some st) (hv : st.Version = addon.Spec.Version)
    (ha : addon.IsAvailable = false) :
    handleUpgradePolicyStatusReporting r wide addon w = some (none, addon, w) := by
  unfold handleUpgradePolicyStatusReporting
  cases hreq : requiresReporting addon with
  | false => simp
  | true =>
    have hne : st.Version ≠ "" := hv ▸ requiresReporting_version hreq
    cases hc : r.ocmClient with
    | none => simp
    | some c =>
      unfold reportStaleOrCompleted
      simp [hs, hne, hv, ha, requiresReporting_version hreq]

/-- Witness for C7: recorded `{version: "1.2.0", value: Started}`, `spec.version = "1.2.0"`,
addon not available, gateway configured. -/
theorem handle_noop_when_current_and_not_available_witness :
    requiresReporting (exampleAddon "1.2.0" false
        (some { Version := "1.2.0", Value := AddonUpgradePolicyValue.Started })) = true ∧
      handleUpgradePolicyStatusReporting reconcilerWithGateway noWide
          (exampleAddon "1.2.0" false
            (some { Version := "1.2.0", Value := AddonUpgradePolicyValue.Started })) emptyWorld
        = some (none,
            exampleAddon "1.2.0" false
              (some { Version := "1.2.0", Value := AddonUpgradePolicyValue.Started }),
            emptyWorld) :=
  ⟨by decide,
    handle_noop_when_current_and_not_available reconcilerWithGateway noWide
      (exampleAddon "1.2.0" false
        (some { Version := "1.2.0", Value := AddonUpgradePolicyValue.Started })) emptyWorld
      { Version := "1.2.0", Value := AddonUpgradePolicyValue.Started } rfl rfl rfl⟩

theorem escapeRunes_plain (wide : Char → Bool) (l : List Char)
    (h : ∀ ch ∈ l, 32 ≤ ch.toNat ∧ ch.toNat ≤ 126 ∧ ch.toNat ≠ 34 ∧ ch.toNat ≠ 92) :
    strconv.escapeRunes wide l = l := by
  induction l with
  | nil => rfl
  | cons ch rest ih =>
    have hch := h ch (List.mem_cons_self _ _)
    have hrest := ih (fun x hx => h x (List.mem_cons_of_mem _ hx))
    have hone : strconv.appendEscapedRune wide ch = [ch] := by
      unfold strconv.appendEscapedRune strconv.IsPrint
      have h1 : ¬ (ch.toNat = 34 ∨ ch.toNat = 92) := by omega
      have h2 : ch.toNat ≤ 0xFF := by omega
      have h3 : 0x20 ≤ ch.toNat ∧ ch.toNat ≤ 0x7E := by omega
      simp only [h1, h2, h3, if_true, if_false, and_self]
    simp [strconv.escapeRunes, hone, hrest]

theorem Quote_plain (wide : Char → Bool) (s : String)
    (h : ∀ ch ∈ s.data, 32 ≤ ch.toNat ∧ ch.toNat ≤ 126 ∧ ch.toNat ≠ 34 ∧ ch.toNat ≠ 92) :
    strconv.Quote wide s = "\"" ++ s ++ "\"" := by
  unfold strconv.Quote
  rw [escapeRunes_plain wide s.data h]
  apply String.ext
  simp [String.data_append]

theorem reportStaleOrCompleted_outcome {σ : Type} (r : AddonReconciler σ) (c : ocm.Client σ)
    (hc : r.ocmClient = some c) (wide : Char → Bool) (addon : Addon) (p : AddonUpgradePolicy)
    (hp : addon.Spec.UpgradePolicy = some p) (st : AddonUpgradePolicyStatus)
    (hs : addon.Status.UpgradePolicy = some st) (w0 : World σ) :
    ∃ err addon1 w1 new,
      reportStaleOrCompleted r wide addon w0 = some (err, addon1, w1) ∧
      w1.calls = w0.calls ++ new ∧ (err ≠ none → addon1 = addon) ∧
      ((∃ call ∈ new, call.failed = true) ↔ err ≠ none) ∧
      (∀ req res gerr, OcmCall.get req res gerr ∉ new) ∧
      (∀ req res perr, OcmCall.patch req res perr ∈ new →
        req.ID = p.ID ∧
        ((req.Value = ocm.UpgradePolicyValue.Started ∧
            req.Description =
              "Upgrading addon to version " ++ strconv.Quote wide addon.Spec.Version ++ ".") ∨
          (req.Value = ocm.UpgradePolicyValue.Completed ∧
            req.Description =
              "Addon was healthy at least once at version "
                ++ strconv.Quote wide addon.Spec.Version ++ "."))) := by
  unfold reportStaleOrCompleted
  simp only [hs]
  by_cases hstale : st.Version = addon.Spec.Version
  · cases ha : addon.IsAvailable with
    | false =>
      exact ⟨none, addon, w0, [], by simp [hstale], by simp, by simp, by simp, by simp,
        by simp⟩
    | true =>
      simp only [hstale, ne_eq, not_true_eq_false, if_false, if_true]
      rw [reportUpgradeCompleted_eq r c hc wide addon p hp w0 _ rfl]
      refine ⟨_, _, _, [_], rfl, rfl, ?_, ?_, by simp, ?_⟩
      · cases (c.PatchUpgradePolicy w0.service _).1.2 <;> simp
      · cases (c.PatchUpgradePolicy w0.service _).1.2 <;> simp [OcmCall.failed]
      · intro req res perr hmem
        simp only [List.mem_singleton, OcmCall.patch.injEq] at hmem
        rw [hmem.1]
        exact ⟨rfl, Or.inr ⟨rfl, rfl⟩⟩
  · simp only [ne_eq, hstale, not_false_eq_true, if_true]
    rw [reportUpgradeStarted_eq r c hc wide addon p hp w0 _ rfl]
    refine ⟨_, _, _, [_], rfl, rfl, ?_, ?_, by simp, ?_⟩
    · cases (c.PatchUpgradePolicy w0.service _).1.2 <;> simp
    · cases (c.PatchUpgradePolicy w0.service _).1.2 <;> simp [OcmCall.failed]
    · intro req res perr hmem
      simp only [List.mem_singleton, OcmCall.patch.injEq] at hmem
      rw [hmem.1]
      exact ⟨rfl, Or.inl ⟨rfl, rfl⟩⟩

theorem handleUpgradePolicyStatusReporting_outcome {σ : Type} (r : AddonReconciler σ)
    (wide : Char → Bool) (addon : Addon) (w : World σ) :
    ∃ err addon1 w1 new,
      handleUpgradePolicyStatusReporting r wide addon w = some (err, addon1, w1) ∧
      w1.calls = w.calls ++ new ∧
      (err ≠ none → addon1 = addon) ∧
      ((∃ call ∈ new, call.failed = true) ↔ err ≠ none) ∧
      (∀ p, addon.Spec.UpgradePolicy = some p →
        (∀ req res perr, OcmCall.patch req res perr ∈ new →
        req.ID = p.ID ∧
        ((req.Value = ocm.UpgradePolicyValue.Started ∧
            req.Description =
              "Upgrading addon to version " ++ strconv.Quote wide addon.Spec.Version ++ ".") ∨
          (req.Value = ocm.UpgradePolicyValue.Completed ∧
            req.Description =
              "Addon was healthy at least once at version "
                ++ strconv.Quote wide addon.Spec.Version ++ ".")))) ∧
      (addon.Spec.UpgradePolicy = none → new = []) := by
  cases hreq : requiresReporting addon with
  | false =>
    refine ⟨none, addon, w, [], ?_, by simp, by simp, by simp, by simp, by simp⟩
    unfold handleUpgradePolicyStatusReporting
    simp [hreq]
  | true =>
    obtain ⟨p, hp⟩ := requiresReporting_policy hreq
    cases hc : r.ocmClient with
    | none =>
      refine ⟨none, addon, w, [], ?_, by simp, by simp, by simp, by simp, by simp⟩
      unfold handleUpgradePolicyStatusReporting
      simp [hreq, hc]
    | some c =>
      cases hs : addon.Status.UpgradePolicy with
      | none =>
        have hrun : handleUpgradePolicyStatusReporting r wide addon w
            = reportUpgradeStarted r wide addon w := by
          unfold handleUpgradePolicyStatusReporting
          simp [hreq, hc, hs]
        rw [hrun, reportUpgradeStarted_eq r c hc wide addon p hp w _ rfl]
        refine ⟨_, _, _, [_], rfl, rfl, ?_, ?_, ?_, by simp [hp]⟩
        · cases (c.PatchUpgradePolicy w.service _).1.2 <;> simp
        · cases (c.PatchUpgradePolicy w.service _).1.2 <;> simp [OcmCall.failed]
        · intro q hq req res perr hmem
          have hqp : q = p := Option.some.inj (hq.symm.trans hp)
          subst hqp
          simp only [List.mem_singleton, OcmCall.patch.injEq] at hmem
          rw [hmem.1]
          exact ⟨rfl, Or.inl ⟨rfl, rfl⟩⟩
      | some st =>
        by_cases hv : st.Version = ""
        · unfold handleUpgradePolicyStatusReporting
          simp only [hreq, hc, hs, hv, handleUnknownPreviousVersion_eq r c hc wide addon p hp]
          rcases hg : (c.GetUpgradePolicy w.service { ID := p.ID }).1 with ⟨res, _ | gerr⟩
          · by_cases hcompl : res.Value = ocm.UpgradePolicyValue.Completed
            · refine ⟨none, addon.SetUpgradePolicyStatus AddonUpgradePolicyValue.Completed,
                w.afterCall r (c.GetUpgradePolicy w.service { ID := p.ID }).2
                  (OcmCall.get { ID := p.ID } res none),
                [OcmCall.get { ID := p.ID } res none], ?_, rfl, by simp, ?_, by simp,
                by simp [hp]⟩
              · simp [hcompl]
              · simp [OcmCall.failed]
            · obtain ⟨err, addon1, w1, new, hrun, hcalls, hsame, hfail, _, hpatch⟩ :=
                reportStaleOrCompleted_outcome r c hc wide addon p hp st hs
                  (w.afterCall r (c.GetUpgradePolicy w.service { ID := p.ID }).2
                    (OcmCall.get { ID := p.ID } res none))
              refine ⟨err, addon1, w1, OcmCall.get { ID := p.ID } res none :: new,
                ?_, ?_, hsame, ?_, ?_, by simp [hp]⟩
              · simp [hcompl, hrun]
              · rw [hcalls]
                simp [World.afterCall]
              · rw [← hfail]
                simp [OcmCall.failed]
              · intro q hq req res1 perr hmem
                have hqp : q = p := Option.some.inj (hq.symm.trans hp)
                subst hqp
                simp only [List.mem_cons, reduceCtorEq, false_or] at hmem
                exact hpatch req res1 perr hmem
          · refine ⟨some ("handling UpgradePolicy with unknown previous version: "
                ++ ("getting UpgradePolicy " ++ strconv.Quote wide p.ID ++ " state: " ++ gerr)),
              addon,
              w.afterCall r (c.GetUpgradePolicy w.service { ID := p.ID }).2
                (OcmCall.get { ID := p.ID } res (some gerr)),
              [OcmCall.get { ID := p.ID } res (some gerr)], ?_, rfl, by simp, ?_, by simp,
              by simp [hp]⟩
            · simp
            · simp [OcmCall.failed]
        · obtain ⟨err, addon1, w1, new, hrun, hcalls, hsame, hfail, _, hpatch⟩ :=
            reportStaleOrCompleted_outcome r c hc wide addon p hp st hs w
          refine ⟨err, addon1, w1, new, ?_, hcalls, hsame, hfail, ?_, by simp [hp]⟩
          · unfold handleUpgradePolicyStatusReporting
            simp [hreq, hc, hs, hv, hrun]
          · intro q hq
            have hqp : q = p := Option.some.inj (hq.symm.trans hp)
            subst hqp
            exact hpatch

/-- C8: every pass returns; the calls it issued extend the trace; if it returns an error the
addon (and so `status.upgradePolicy`) is exactly what it was before the pass; and it
returns an error exactly when one of the calls issued in the pass came back with an
error, so no failure of an issued call is swallowed. -/
theorem handle_fault_leaves_addon_untouched {σ : Type} (r : AddonReconciler σ)
    (wide : Char → Bool) (addon : Addon) (w : World σ) :
    ∃ err addon1 w1 new,
      handleUpgradePolicyStatusReporting r wide addon w = some (err, addon1, w1) ∧
      w1.calls = w.calls ++ new ∧
      (err ≠ none → addon1 = addon ∧
        addon1.Status.UpgradePolicy = addon.Status.UpgradePolicy) ∧
      ((∃ call ∈ new, call.failed = true) ↔ err ≠ none) := by
  obtain ⟨err, addon1, w1, new, hrun, hcalls, hsame, hfail, _, _⟩ :=
    handleUpgradePolicyStatusReporting_outcome r wide addon w
  refine ⟨err, addon1, w1, new, hrun, hcalls, fun herr => ?_, hfail⟩
  have heq := hsame herr
  exact ⟨heq, by rw [heq]⟩

/-- C9: reporting required but no gateway configured: the handler returns no error and
leaves the addon and the world (service state, trace of calls, observations) exactly as
they were; a later pass of any reconciler `r2` (one with a gateway, say) on what this
pass left behind therefore does exactly what it would have done in place of this pass. -/
theorem handle_defers_without_gateway {σ : Type} (r r2 : AddonReconciler σ)
    (wide : Char → Bool) (addon : Addon) (w : World σ)
    (hreq : requiresReporting addon = true) (hc : r.ocmClient = none) :
    handleUpgradePolicyStatusReporting r wide addon w = some (none, addon, w) ∧
    (handleUpgradePolicyStatusReporting r wide addon w).bind
        (fun out => handleUpgradePolicyStatusReporting r2 wide out.2.1 out.2.2)
      = handleUpgradePolicyStatusReporting r2 wide addon w := by
  have hrun : handleUpgradePolicyStatusReporting r wide addon w = some (none, addon, w) := by
    unfold handleUpgradePolicyStatusReporting
    simp [hreq, hc]
  refine ⟨hrun, ?_⟩
  rw [hrun]
  rfl

/-- Witness for C9: `spec.version = "1.2.0"`, no status recorded, first without and then with
a gateway: the first pass changes nothing and the second issues the `Started` patch. -/
theorem handle_defers_without_gateway_witness :
    requiresReporting (exampleAddon "1.2.0" true none) = true ∧
    (handleUpgradePolicyStatusReporting reconcilerWithoutGateway noWide
        (exampleAddon "1.2.0" true none) emptyWorld
      = some (none, exampleAddon "1.2.0" true none, emptyWorld) ∧
    (handleUpgradePolicyStatusReporting reconcilerWithoutGateway noWide
        (exampleAddon "1.2.0" true none) emptyWorld).bind
        (fun out => handleUpgradePolicyStatusReporting reconcilerWithGateway noWide
          out.2.1 out.2.2)
      = handleUpgradePolicyStatusReporting reconcilerWithGateway noWide
          (exampleAddon "1.2.0" true none) emptyWorld) :=
  ⟨by decide,
    handle_defers_without_gateway reconcilerWithoutGateway reconcilerWithGateway noWide
      (exampleAddon "1.2.0" true none) emptyWorld (by decide) rfl⟩

/-- C10, as stated, fails: for `spec.version = "1.2.0"` the `Started` patch that the pass issues
carries the description `Upgrading addon to version "1.2.0".`, with the version between
double quotes (the verb is `%q`), which is not the sentence with the version substituted
verbatim, `Upgrading addon to version 1.2.0.`. -/
theorem started_description_not_verbatim_counterexample :
    ∃ addon1 w1 req res perr,
      handleUpgradePolicyStatusReporting reconcilerWithGateway noWide
        (exampleAddon "1.2.0" false none) emptyWorld = some (none, addon1, w1) ∧
      w1.calls = [OcmCall.patch req res perr] ∧
      req.Value = ocm.UpgradePolicyValue.Started ∧
      req.Description = "Upgrading addon to version \"1.2.0\"." ∧
      req.Description ≠
        "Upgrading addon to version " ++ (exampleAddon "1.2.0" false none).Spec.Version ++ "." ∧
      req.Description ≠ "Upgrading addon to version 1.2.0." :=
  ⟨exampleAddon "1.2.0" false
      (some { Version := "1.2.0", Value := AddonUpgradePolicyValue.Started }),
    { service := ()
      calls := [OcmCall.patch
        { ID := "p1"
          Value := ocm.UpgradePolicyValue.Started
          Description := "Upgrading addon to version \"1.2.0\"." } {} none]
      observations := 0 },
    { ID := "p1"
      Value := ocm.UpgradePolicyValue.Started
      Description := "Upgrading addon to version \"1.2.0\"." },
    {}, none, by decide, rfl, rfl, rfl, by decide, by decide⟩

/-- C10, amended: every pass returns, and every patch request it issues carries the id of the
policy reference of the spec and, for value `Started`, the description
`Upgrading addon to version ` followed by the Go-quoted `spec.version` and a full stop,
for value `Completed` the description `Addon was healthy at least once at version `
followed by the Go-quoted `spec.version` and a full stop (no other value is sent). The
Go-quoted form of a version made of printable ASCII characters other than the double
quote and the backslash is the version between double quotes. -/
theorem patch_request_carries_id_and_quoted_version {σ : Type} (r : AddonReconciler σ)
    (wide : Char → Bool) (addon : Addon) (w : World σ) :
    (∃ err addon1 w1 new,
      handleUpgradePolicyStatusReporting r wide addon w = some (err, addon1, w1) ∧
      w1.calls = w.calls ++ new ∧
      ∀ req res perr, OcmCall.patch req res perr ∈ new →
        ∃ p, addon.Spec.UpgradePolicy = some p ∧ req.ID = p.ID ∧
          ((req.Value = ocm.UpgradePolicyValue.Started ∧
              req.Description =
                "Upgrading addon to version " ++ strconv.Quote wide addon.Spec.Version ++ ".") ∨
            (req.Value = ocm.UpgradePolicyValue.Completed ∧
              req.Description =
                "Addon was healthy at least once at version "
                  ++ strconv.Quote wide addon.Spec.Version ++ "."))) ∧
    ((∀ ch ∈ addon.Spec.Version.data,
        32 ≤ ch.toNat ∧ ch.toNat ≤ 126 ∧ ch.toNat ≠ 34 ∧ ch.toNat ≠ 92) →
      strconv.Quote wide addon.Spec.Version = "\"" ++ addon.Spec.Version ++ "\"") := by
  refine ⟨?_, Quote_plain wide addon.Spec.Version⟩
  obtain ⟨err, addon1, w1, new, hrun, hcalls, _, _, hpatch, hnone⟩ :=
    handleUpgradePolicyStatusReporting_outcome r wide addon w
  refine ⟨err, addon1, w1, new, hrun, hcalls, ?_⟩
  intro req res perr hmem
  cases hp : addon.Spec.UpgradePolicy with
  | none =>
    rw [hnone hp] at hmem
    simp at hmem
  | some p =>
    obtain ⟨hid, hdesc⟩ := hpatch p hp req res perr hmem
    exact ⟨p, rfl, hid, hdesc⟩

/-- Witness for C10, amended: for `spec.version = "1.2.0"` the quoted version is `"1.2.0"`
with its double quotes, so the `Started` description is
`Upgrading addon to version "1.2.0".`. -/
theorem patch_request_carries_id_and_quoted_version_witness :
    (∀ ch ∈ (exampleAddon "1.2.0" false none).Spec.Version.data,
      32 ≤ ch.toNat ∧ ch.toNat ≤ 126 ∧ ch.toNat ≠ 34 ∧ ch.toNat ≠ 92) ∧
    strconv.Quote noWide (exampleAddon "1.2.0" false none).Spec.Version
      = "\"" ++ (exampleAddon "1.2.0" false none).Spec.Version ++ "\"" ∧
    "Upgrading addon to version " ++ strconv.Quote noWide "1.2.0" ++ "."
      = "Upgrading addon to version \"1.2.0\"." :=
  ⟨by decide,
    (patch_request_carries_id_and_quoted_version reconcilerWithGateway noWide
      (exampleAddon "1.2.0" false none) emptyWorld).2 (by decide),
    by decide⟩

end addon

namespace addon

open addonsv1alpha1

theorem handle_eq_of_guard_false {σ : Type} (r : AddonReconciler σ) (wide : Char → Bool)
    (addon : Addon) (w : World σ) (hreq : requiresReporting addon = false) :
    handleUpgradePolicyStatusReporting r wide addon w = some (none, addon, w) := by
  unfold handleUpgradePolicyStatusReporting
  simp [hreq]

theorem handle_eq_of_no_gateway {σ : Type} (r : AddonReconciler σ) (wide : Char → Bool)
    (addon : Addon) (w : World σ) (hc : r.ocmClient = none) :
    handleUpgradePolicyStatusReporting r wide addon w = some (none, addon, w) := by
  unfold handleUpgradePolicyStatusReporting
  cases hreq : requiresReporting addon <;> simp [hc]

theorem handle_eq_of_absent {σ : Type} (r : AddonReconciler σ) (c : ocm.Client σ)
    (wide : Char → Bool) (addon : Addon) (w : World σ)
    (hreq : requiresReporting addon = true) (hc : r.ocmClient = some c)
    (hs : addon.Status.UpgradePolicy = none) :
    handleUpgradePolicyStatusReporting r wide addon w = reportUpgradeStarted r wide addon w := by
  unfold handleUpgradePolicyStatusReporting
  simp [hreq, hc, hs]

theorem handle_eq_of_known {σ : Type} (r : AddonReconciler σ) (c : ocm.Client σ)
    (wide : Char → Bool) (addon : Addon) (w : World σ) (st : AddonUpgradePolicyStatus)
    (hreq : requiresReporting addon = true) (hc : r.ocmClient = some c)
    (hs : addon.Status.UpgradePolicy = some st) (hv : st.Version ≠ "") :
    handleUpgradePolicyStatusReporting r wide addon w
      = reportStaleOrCompleted r wide addon w := by
  unfold handleUpgradePolicyStatusReporting
  simp [hreq, hc, hs, hv]

theorem reportStaleOrCompleted_eq_started {σ : Type} (r : AddonReconciler σ)
    (wide : Char → Bool) (addon : Addon) (w : World σ) (st : AddonUpgradePolicyStatus)
    (hs : addon.Status.UpgradePolicy = some st) (hstale : st.Version ≠ addon.Spec.Version) :
    reportStaleOrCompleted r wide addon w = reportUpgradeStarted r wide addon w := by
  unfold reportStaleOrCompleted
  simp [hs, hstale]

theorem reportStaleOrCompleted_eq_completed {σ : Type} (r : AddonReconciler σ)
    (wide : Char → Bool) (addon : Addon) (w : World σ) (st : AddonUpgradePolicyStatus)
    (hs : addon.Status.UpgradePolicy = some st) (hcur : st.Version = addon.Spec.Version)
    (ha : addon.IsAvailable = true) :
    reportStaleOrCompleted r wide addon w = reportUpgradeCompleted r wide addon w := by
  unfold reportStaleOrCompleted
  simp [hs, hcur, ha]

theorem reportStaleOrCompleted_eq_noop {σ : Type} (r : AddonReconciler σ)
    (wide : Char → Bool) (addon : Addon) (w : World σ) (st : AddonUpgradePolicyStatus)
    (hs : addon.Status.UpgradePolicy = some st) (hcur : st.Version = addon.Spec.Version)
    (ha : addon.IsAvailable = false) :
    reportStaleOrCompleted r wide addon w = some (none, addon, w) := by
  unfold reportStaleOrCompleted
  simp [hs, hcur, ha]

theorem handle_eq_of_unknown {σ : Type} (r : AddonReconciler σ) (c : ocm.Client σ)
    (wide : Char → Bool) (addon : Addon) (w : World σ) (p : AddonUpgradePolicy)
    (st : AddonUpgradePolicyStatus)
    (hreq : requiresReporting addon = true) (hc : r.ocmClient = some c)
    (hp : addon.Spec.UpgradePolicy = some p)
    (hs : addon.Status.UpgradePolicy = some st) (hv : st.Version = "") :
    handleUpgradePolicyStatusReporting r wide addon w =
      match (c.GetUpgradePolicy w.service { ID := p.ID }).1.2 with
      | some gerr =>
        some (some ("handling UpgradePolicy with unknown previous version: "
            ++ ("getting UpgradePolicy " ++ strconv.Quote wide p.ID ++ " state: " ++ gerr)),
          addon,
          w.afterCall r (c.GetUpgradePolicy w.service { ID := p.ID }).2
            (OcmCall.get { ID := p.ID } (c.GetUpgradePolicy w.service { ID := p.ID }).1.1
              (c.GetUpgradePolicy w.service { ID := p.ID }).1.2))
      | none =>
        if (c.GetUpgradePolicy w.service { ID := p.ID }).1.1.Value
            = ocm.UpgradePolicyValue.Completed then
          some (none, addon.SetUpgradePolicyStatus AddonUpgradePolicyValue.Completed,
            w.afterCall r (c.GetUpgradePolicy w.service { ID := p.ID }).2
              (OcmCall.get { ID := p.ID } (c.GetUpgradePolicy w.service { ID := p.ID }).1.1
                (c.GetUpgradePolicy w.service { ID := p.ID }).1.2))
        else
          reportUpgradeStarted r wide addon
            (w.afterCall r (c.GetUpgradePolicy w.service { ID := p.ID }).2
              (OcmCall.get { ID := p.ID } (c.GetUpgradePolicy w.service { ID := p.ID }).1.1
                (c.GetUpgradePolicy w.service { ID := p.ID }).1.2)) := by
  have hstale : st.Version ≠ addon.Spec.Version := by
    rw [hv]
    exact fun h => requiresReporting_version hreq h.symm
  unfold handleUpgradePolicyStatusReporting
  simp only [hreq, hc, hs, hv, handleUnknownPreviousVersion_eq r c hc wide addon p hp]
  rcases hg : (c.GetUpgradePolicy w.service { ID := p.ID }).1 with ⟨res, _ | gerr⟩
  · by_cases hcompl : res.Value = ocm.UpgradePolicyValue.Completed
    · simp [hcompl]
    · simp [hcompl, reportStaleOrCompleted_eq_started r wide addon _ st hs hstale]
  · simp

theorem reportUpgradeStarted_shape {σ : Type} (r : AddonReconciler σ) (c : ocm.Client σ)
    (hc : r.ocmClient = some c) (wide : Char → Bool) (addon : Addon) (p : AddonUpgradePolicy)
    (hp : addon.Spec.UpgradePolicy = some p) (w0 : World σ) :
    ∃ err addon1 w1 req res perr,
      reportUpgradeStarted r wide addon w0 = some (err, addon1, w1) ∧
      w1.calls = w0.calls ++ [OcmCall.patch req res perr] ∧
      req.Value = ocm.UpgradePolicyValue.Started ∧
      addon1.Spec = addon.Spec ∧
      addon1.Status.Available = addon.Status.Available ∧
      (perr = none → err = none ∧
        addon1.Status.UpgradePolicy =
          some { Version := addon.Spec.Version, Value := AddonUpgradePolicyValue.Started }) ∧
      (perr ≠ none → err ≠ none ∧ addon1 = addon) := by
  rw [reportUpgradeStarted_eq r c hc wide addon p hp w0 _ rfl]
  refine ⟨_, _, _, _, _, _, rfl, rfl, rfl, ?_, ?_, ?_, ?_⟩
  · cases (c.PatchUpgradePolicy w0.service _).1.2 <;> simp [Addon.SetUpgradePolicyStatus]
  · cases (c.PatchUpgradePolicy w0.service _).1.2 <;> simp [Addon.SetUpgradePolicyStatus]
  · intro hok
    simp [hok, Addon.SetUpgradePolicyStatus]
  · intro hbad
    cases hperr : (c.PatchUpgradePolicy w0.service
      { ID := p.ID, Value := ocm.UpgradePolicyValue.Started, Description := _ }).1.2 with
    | none => exact absurd hperr hbad
    | some e => simp

theorem reportUpgradeCompleted_shape {σ : Type} (r : AddonReconciler σ) (c : ocm.Client σ)
    (hc : r.ocmClient = some c) (wide : Char → Bool) (addon : Addon) (p : AddonUpgradePolicy)
    (hp : addon.Spec.UpgradePolicy = some p) (w0 : World σ) :
    ∃ err addon1 w1 req res perr,
      reportUpgradeCompleted r wide addon w0 = some (err, addon1, w1) ∧
      w1.calls = w0.calls ++ [OcmCall.patch req res perr] ∧
      req.Value = ocm.UpgradePolicyValue.Completed ∧
      addon1.Spec = addon.Spec ∧
      addon1.Status.Available = addon.Status.Available ∧
      (perr = none → err = none ∧
        addon1.Status.UpgradePolicy =
          some { Version := addon.Spec.Version, Value := AddonUpgradePolicyValue.Completed }) ∧
      (perr ≠ none → err ≠ none ∧ addon1 = addon) := by
  rw [reportUpgradeCompleted_eq r c hc wide addon p hp w0 _ rfl]
  refine ⟨_, _, _, _, _, _, rfl, rfl, rfl, ?_, ?_, ?_, ?_⟩
  · cases (c.PatchUpgradePolicy w0.service _).1.2 <;> simp [Addon.SetUpgradePolicyStatus]
  · cases (c.PatchUpgradePolicy w0.service _).1.2 <;> simp [Addon.SetUpgradePolicyStatus]
  · intro hok
    simp [hok, Addon.SetUpgradePolicyStatus]
  · intro hbad
    cases hperr : (c.PatchUpgradePolicy w0.service
      { ID := p.ID, Value := ocm.UpgradePolicyValue.Completed, Description := _ }).1.2 with
    | none => exact absurd hperr hbad
    | some e => simp

theorem handleUpgradePolicyStatusReporting_shape {σ : Type} (r : AddonReconciler σ)
    (wide : Char → Bool) (addon : Addon) (w : World σ) :
    ∃ err addon1 w1 new,
      handleUpgradePolicyStatusReporting r wide addon w = some (err, addon1, w1) ∧
      w1.calls = w.calls ++ new ∧
      addon1.Spec = addon.Spec ∧
      addon1.Status.Available = addon.Status.Available ∧
      ((new = [] ∧ err = none ∧ addon1 = addon ∧ w1 = w ∧
          (requiresReporting addon = false ∨ r.ocmClient = none ∨
            ∃ st, addon.Status.UpgradePolicy = some st ∧
              st.Version = addon.Spec.Version ∧ addon.IsAvailable = false)) ∨
        (∃ req res perr, new = [OcmCall.patch req res perr] ∧
          req.Value = ocm.UpgradePolicyValue.Started ∧
          requiresReporting addon = true ∧
          (addon.Status.UpgradePolicy = none ∨
            ∃ st, addon.Status.UpgradePolicy = some st ∧ st.Version ≠ "" ∧
              st.Version ≠ addon.Spec.Version) ∧
          (perr = none → err = none ∧
            addon1.Status.UpgradePolicy =
              some { Version := addon.Spec.Version,
                     Value := AddonUpgradePolicyValue.Started }) ∧
          (perr ≠ none → err ≠ none ∧ addon1 = addon)) ∨
        (∃ req res perr, new = [OcmCall.patch req res perr] ∧
          req.Value = ocm.UpgradePolicyValue.Completed ∧
          requiresReporting addon = true ∧
          (∃ st, addon.Status.UpgradePolicy = some st ∧
            st.Version = addon.Spec.Version) ∧
          addon.IsAvailable = true ∧
          (perr = none → err = none ∧
            addon1.Status.UpgradePolicy =
              some { Version := addon.Spec.Version,
                     Value := AddonUpgradePolicyValue.Completed }) ∧
          (perr ≠ none → err ≠ none ∧ addon1 = addon)) ∨
        (∃ req res gerr, new = [OcmCall.get req res gerr] ∧
          requiresReporting addon = true ∧
          (∃ st, addon.Status.UpgradePolicy = some st ∧ st.Version = "") ∧
          ((gerr ≠ none ∧ err ≠ none ∧ addon1 = addon) ∨
            (gerr = none ∧ res.Value = ocm.UpgradePolicyValue.Completed ∧ err = none ∧
              addon1.Status.UpgradePolicy =
                some { Version := addon.Spec.Version,
                       Value := AddonUpgradePolicyValue.Completed }))) ∨
        (∃ greq gres req res perr,
          new = [OcmCall.get greq gres none, OcmCall.patch req res perr] ∧
          gres.Value ≠ ocm.UpgradePolicyValue.Completed ∧
          req.Value = ocm.UpgradePolicyValue.Started ∧
          requiresReporting addon = true ∧
          (∃ st, addon.Status.UpgradePolicy = some st ∧ st.Version = "") ∧
          (perr = none → err = none ∧
            addon1.Status.UpgradePolicy =
              some { Version := addon.Spec.Version,
                     Value := AddonUpgradePolicyValue.Started }) ∧
          (perr ≠ none → err ≠ none ∧ addon1 = addon))) := by
  cases hreq : requiresReporting addon with
  | false =>
    exact ⟨none, addon, w, [], handle_eq_of_guard_false r wide addon w hreq, by simp, rfl, rfl,
      Or.inl ⟨rfl, rfl, rfl, rfl, Or.inl rfl⟩⟩
  | true =>
    obtain ⟨p, hp⟩ := requiresReporting_policy hreq
    have hver := requiresReporting_version hreq
    cases hc : r.ocmClient with
    | none =>
      exact ⟨none, addon, w, [], handle_eq_of_no_gateway r wide addon w hc, by simp, rfl, rfl,
        Or.inl ⟨rfl, rfl, rfl, rfl, Or.inr (Or.inl rfl)⟩⟩
    | some c =>
      cases hs : addon.Status.UpgradePolicy with
      | none =>
        obtain ⟨err, addon1, w1, req, res, perr, hrun, hcalls, hval, hspec, hav, hok, hbad⟩ :=
          reportUpgradeStarted_shape r c hc wide addon p hp w
        rw [← handle_eq_of_absent r c wide addon w hreq hc hs] at hrun
        exact ⟨err, addon1, w1, _, hrun, hcalls, hspec, hav,
          Or.inr (Or.inl ⟨req, res, perr, rfl, hval, rfl, Or.inl rfl, hok, hbad⟩)⟩
      | some st =>
        by_cases hv : st.Version = ""
        · have hrun := handle_eq_of_unknown r c wide addon w p st hreq hc hp hs hv
          cases hg : (c.GetUpgradePolicy w.service { ID := p.ID }).1.2 with
          | some gerr =>
            rw [hg] at hrun
            exact ⟨_, addon, _, [_], hrun, rfl, rfl, rfl,
              Or.inr (Or.inr (Or.inr (Or.inl ⟨_, _, _, rfl, rfl, ⟨st, rfl, hv⟩,
                Or.inl ⟨by simp, by simp, rfl⟩⟩)))⟩
          | none =>
            rw [hg] at hrun
            by_cases hcompl : (c.GetUpgradePolicy w.service { ID := p.ID }).1.1.Value
                = ocm.UpgradePolicyValue.Completed
            · simp only [hcompl, if_true] at hrun
              exact ⟨_, _, _, [_], hrun, rfl, by simp [Addon.SetUpgradePolicyStatus],
                by simp [Addon.SetUpgradePolicyStatus],
                Or.inr (Or.inr (Or.inr (Or.inl ⟨_, _, _, rfl, rfl, ⟨st, rfl, hv⟩,
                  Or.inr ⟨rfl, hcompl, rfl, by simp [Addon.SetUpgradePolicyStatus]⟩⟩)))⟩
            · simp only [hcompl, if_false] at hrun
              obtain ⟨err, addon1, w1, req, res, perr, hrep, hcalls, hval, hspec, hav, hok,
                hbad⟩ := reportUpgradeStarted_shape r c hc wide addon p hp
                  (w.afterCall r (c.GetUpgradePolicy w.service { ID := p.ID }).2
                    (OcmCall.get { ID := p.ID }
                      (c.GetUpgradePolicy w.service { ID := p.ID }).1.1 none))
              rw [hrep] at hrun
              refine ⟨err, addon1, w1, _, hrun, ?_, hspec, hav,
                Or.inr (Or.inr (Or.inr (Or.inr ⟨{ ID := p.ID },
                  (c.GetUpgradePolicy w.service { ID := p.ID }).1.1, req, res, perr, rfl,
                  hcompl, hval, rfl, ⟨st, rfl, hv⟩, hok, hbad⟩)))⟩
              rw [hcalls]
              simp [World.afterCall]
        · have hrun := handle_eq_of_known r c wide addon w st hreq hc hs hv
          by_cases hstale : st.Version = addon.Spec.Version
          · cases ha : addon.IsAvailable with
            | false =>
              rw [reportStaleOrCompleted_eq_noop r wide addon w st hs hstale ha] at hrun
              exact ⟨none, addon, w, [], hrun, by simp, rfl, rfl,
                Or.inl ⟨rfl, rfl, rfl, rfl, Or.inr (Or.inr ⟨st, rfl, hstale, rfl⟩)⟩⟩
            | true =>
              rw [reportStaleOrCompleted_eq_completed r wide addon w st hs hstale ha] at hrun
              obtain ⟨err, addon1, w1, req, res, perr, hrep, hcalls, hval, hspec, hav, hok,
                hbad⟩ := reportUpgradeCompleted_shape r c hc wide addon p hp w
              rw [hrep] at hrun
              exact ⟨err, addon1, w1, _, hrun, hcalls, hspec, hav,
                Or.inr (Or.inr (Or.inl ⟨req, res, perr, rfl, hval, rfl, ⟨st, rfl, hstale⟩,
                  rfl, hok, hbad⟩))⟩
          · rw [reportStaleOrCompleted_eq_started r wide addon w st hs hstale] at hrun
            obtain ⟨err, addon1, w1, req, res, perr, hrep, hcalls, hval, hspec, hav, hok,
              hbad⟩ := reportUpgradeStarted_shape r c hc wide addon p hp w
            rw [hrep] at hrun
            exact ⟨err, addon1, w1, _, hrun, hcalls, hspec, hav,
              Or.inr (Or.inl ⟨req, res, perr, rfl, hval, rfl,
                Or.inr ⟨st, rfl, hv, hstale⟩, hok, hbad⟩)⟩

/-- C11: with a client configured, `handlePatchUpgradePolicy` and `handleGetUpgradePolicyState`
issue exactly one call of the client (the trace grows by that one call, the service is
left in the state the call left it in) and return exactly what the call returned: the error
of the patch (its response is discarded by the function and carries nothing), the response
and the error of the get. This holds with and without a recorder; without a recorder the
number of recorded durations is unchanged, with a recorder it grows by exactly one. -/
theorem metrics_wrapper_is_outcome_transparent {σ : Type} (r : AddonReconciler σ)
    (c : ocm.Client σ) (preq : ocm.UpgradePolicyPatchRequest)
    (greq : ocm.UpgradePolicyGetRequest) (w : World σ) (hc : r.ocmClient = some c) :
    (∃ w1,
      handlePatchUpgradePolicy r preq w
        = some ((c.PatchUpgradePolicy w.service preq).1.2, w1) ∧
      w1.calls = w.calls ++ [OcmCall.patch preq (c.PatchUpgradePolicy w.service preq).1.1
        (c.PatchUpgradePolicy w.service preq).1.2] ∧
      w1.service = (c.PatchUpgradePolicy w.service preq).2 ∧
      (r.Recorder = none → w1.observations = w.observations) ∧
      (r.Recorder ≠ none → w1.observations = w.observations + 1)) ∧
    (∃ w1,
      handleGetUpgradePolicyState r greq w
        = some ((c.GetUpgradePolicy w.service greq).1, w1) ∧
      w1.calls = w.calls ++ [OcmCall.get greq (c.GetUpgradePolicy w.service greq).1.1
        (c.GetUpgradePolicy w.service greq).1.2] ∧
      w1.service = (c.GetUpgradePolicy w.service greq).2 ∧
      (r.Recorder = none → w1.observations = w.observations) ∧
      (r.Recorder ≠ none → w1.observations = w.observations + 1)) := by
  constructor
  · refine ⟨_, handlePatchUpgradePolicy_eq r c hc preq w, rfl, rfl, ?_, ?_⟩
    · intro hrec
      simp [World.afterCall, hrec]
    · intro hrec
      cases hr : r.Recorder with
      | none => exact absurd hr hrec
      | some rec => simp [World.afterCall, hr]
  · refine ⟨_, handleGetUpgradePolicyState_eq r c hc greq w, rfl, rfl, ?_, ?_⟩
    · intro hrec
      simp [World.afterCall, hrec]
    · intro hrec
      cases hr : r.Recorder with
      | none => exact absurd hr hrec
      | some rec => simp [World.afterCall, hr]

/-- Witness for C11: one patch and one get through a reconciler with a recorder; each returns
what the service returned and records one duration. -/
theorem metrics_wrapper_is_outcome_transparent_witness :
    handlePatchUpgradePolicy reconcilerWithRecorder
        { ID := "p1", Value := ocm.UpgradePolicyValue.Started, Description := "d" } emptyWorld
      = some (none,
          { service := ()
            calls := [OcmCall.patch
              { ID := "p1", Value := ocm.UpgradePolicyValue.Started, Description := "d" }
              {} none]
            observations := 1 }) ∧
    handleGetUpgradePolicyState reconcilerWithGateway { ID := "p1" } emptyWorld
      = some (({ Value := ocm.UpgradePolicyValue.Completed }, none),
          { service := ()
            calls := [OcmCall.get { ID := "p1" }
              { Value := ocm.UpgradePolicyValue.Completed } none]
            observations := 0 }) ∧
    ((∃ w1,
      handlePatchUpgradePolicy reconcilerWithRecorder
          { ID := "p1", Value := ocm.UpgradePolicyValue.Started, Description := "d" }
          emptyWorld
        = some ((completedService.PatchUpgradePolicy emptyWorld.service
            { ID := "p1", Value := ocm.UpgradePolicyValue.Started, Description := "d" }).1.2,
          w1) ∧
      w1.calls = emptyWorld.calls ++ [OcmCall.patch
        { ID := "p1", Value := ocm.UpgradePolicyValue.Started, Description := "d" }
        (completedService.PatchUpgradePolicy emptyWorld.service
          { ID := "p1", Value := ocm.UpgradePolicyValue.Started, Description := "d" }).1.1
        (completedService.PatchUpgradePolicy emptyWorld.service
          { ID := "p1", Value := ocm.UpgradePolicyValue.Started, Description := "d" }).1.2] ∧
      w1.service = (completedService.PatchUpgradePolicy emptyWorld.service
        { ID := "p1", Value := ocm.UpgradePolicyValue.Started, Description := "d" }).2 ∧
      (reconcilerWithRecorder.Recorder = none → w1.observations = emptyWorld.observations) ∧
      (reconcilerWithRecorder.Recorder ≠ none →
        w1.observations = emptyWorld.observations + 1)) ∧
    (∃ w1,
      handleGetUpgradePolicyState reconcilerWithRecorder { ID := "p1" } emptyWorld
        = some ((completedService.GetUpgradePolicy emptyWorld.service { ID := "p1" }).1, w1) ∧
      w1.calls = emptyWorld.calls ++ [OcmCall.get { ID := "p1" }
        (completedService.GetUpgradePolicy emptyWorld.service { ID := "p1" }).1.1
        (completedService.GetUpgradePolicy emptyWorld.service { ID := "p1" }).1.2] ∧
      w1.service = (completedService.GetUpgradePolicy emptyWorld.service { ID := "p1" }).2 ∧
      (reconcilerWithRecorder.Recorder = none → w1.observations = emptyWorld.observations) ∧
      (reconcilerWithRecorder.Recorder ≠ none →
        w1.observations = emptyWorld.observations + 1))) :=
  ⟨by decide, by decide,
    metrics_wrapper_is_outcome_transparent reconcilerWithRecorder completedService
      { ID := "p1", Value := ocm.UpgradePolicyValue.Started, Description := "d" }
      { ID := "p1" } emptyWorld rfl⟩

/-- C12: every pass returns, and if the status it leaves behind differs from the status it
found, then one of the calls issued in that pass came back without error and the status
written is what that call established: `{version: spec.version, value: Started}` after
a successful `Started` patch, `{version: spec.version, value: Completed}` after a
successful `Completed` patch or after a successful `getPolicy` answering `Completed`. -/
theorem status_written_only_after_successful_call {σ : Type} (r : AddonReconciler σ)
    (wide : Char → Bool) (addon : Addon) (w : World σ) :
    ∃ err addon1 w1 new,
      handleUpgradePolicyStatusReporting r wide addon w = some (err, addon1, w1) ∧
      w1.calls = w.calls ++ new ∧
      (addon1.Status.UpgradePolicy ≠ addon.Status.UpgradePolicy →
        (∃ req res, OcmCall.patch req res none ∈ new ∧
          req.Value = ocm.UpgradePolicyValue.Started ∧
          addon1.Status.UpgradePolicy =
            some { Version := addon.Spec.Version,
                   Value := AddonUpgradePolicyValue.Started }) ∨
        (∃ req res, OcmCall.patch req res none ∈ new ∧
          req.Value = ocm.UpgradePolicyValue.Completed ∧
          addon1.Status.UpgradePolicy =
            some { Version := addon.Spec.Version,
                   Value := AddonUpgradePolicyValue.Completed }) ∨
        (∃ req res, OcmCall.get req res none ∈ new ∧
          res.Value = ocm.UpgradePolicyValue.Completed ∧
          addon1.Status.UpgradePolicy =
            some { Version := addon.Spec.Version,
                   Value := AddonUpgradePolicyValue.Completed })) := by
  obtain ⟨err, addon1, w1, new, hrun, hcalls, _, _, hshape⟩ :=
    handleUpgradePolicyStatusReporting_shape r wide addon w
  refine ⟨err, addon1, w1, new, hrun, hcalls, fun hdiff => ?_⟩
  rcases hshape with ⟨_, _, hsame, _, _⟩ | ⟨req, res, perr, hnew, hval, _, _, hok, hbad⟩ |
    ⟨req, res, perr, hnew, hval, _, _, _, hok, hbad⟩ |
    ⟨req, res, gerr, hnew, _, _, hget⟩ |
    ⟨greq, gres, req, res, perr, hnew, _, hval, _, _, hok, hbad⟩
  · rw [hsame] at hdiff
    exact absurd rfl hdiff
  · cases perr with
    | none => exact Or.inl ⟨req, res, by simp [hnew], hval, (hok rfl).2⟩
    | some e =>
      rw [(hbad (by simp)).2] at hdiff
      exact absurd rfl hdiff
  · cases perr with
    | none => exact Or.inr (Or.inl ⟨req, res, by simp [hnew], hval, (hok rfl).2⟩)
    | some e =>
      rw [(hbad (by simp)).2] at hdiff
      exact absurd rfl hdiff
  · rcases hget with ⟨_, _, hsame⟩ | ⟨hgerr, hcompl, _, hst⟩
    · rw [hsame] at hdiff
      exact absurd rfl hdiff
    · subst hgerr
      exact Or.inr (Or.inr ⟨req, res, by simp [hnew], hcompl, hst⟩)
  · cases perr with
    | none => exact Or.inl ⟨req, res, by simp [hnew], hval, (hok rfl).2⟩
    | some e =>
      rw [(hbad (by simp)).2] at hdiff
      exact absurd rfl hdiff

/-- C17: reporting required, gateway configured, recorded version empty, and `getPolicy`
succeeds with a value other than `Completed`: the pass issues exactly two calls, that
`getPolicy` followed by the `Started` patch for `spec.version` (sent to the service in
the state the get left it in), whatever the availability and whatever the value
answered; no `Completed` patch is issued. The status is not touched on account of the
fetched value: it becomes `{version: spec.version, value: Started}` when the patch
succeeds and stays as it was when the patch fails. -/
theorem handle_falls_through_after_unknown_version {σ : Type} (r : AddonReconciler σ)
    (c : ocm.Client σ) (wide : Char → Bool) (addon : Addon) (w : World σ)
    (p : AddonUpgradePolicy) (st : AddonUpgradePolicyStatus)
    (hreq : requiresReporting addon = true) (hc : r.ocmClient = some c)
    (hp : addon.Spec.UpgradePolicy = some p)
    (hs : addon.Status.UpgradePolicy = some st) (hv : st.Version = "")
    (hget : (c.GetUpgradePolicy w.service { ID := p.ID }).1.2 = none)
    (hvalue : (c.GetUpgradePolicy w.service { ID := p.ID }).1.1.Value
      ≠ ocm.UpgradePolicyValue.Completed) :
    ∃ req err addon1 w1,
      req =
        { ID := p.ID
          Value := ocm.UpgradePolicyValue.Started
          Description :=
            "Upgrading addon to version " ++ strconv.Quote wide addon.Spec.Version ++ "." } ∧
      handleUpgradePolicyStatusReporting r wide addon w = some (err, addon1, w1) ∧
      w1.calls = w.calls ++
        [OcmCall.get { ID := p.ID } (c.GetUpgradePolicy w.service { ID := p.ID }).1.1 none,
          OcmCall.patch req
            (c.PatchUpgradePolicy (c.GetUpgradePolicy w.service { ID := p.ID }).2 req).1.1
            (c.PatchUpgradePolicy (c.GetUpgradePolicy w.service { ID := p.ID }).2 req).1.2] ∧
      (∀ call ∈ w1.calls.drop w.calls.length,
        call.isPatchOf ocm.UpgradePolicyValue.Completed = false) ∧
      addon1.Spec = addon.Spec ∧
      addon1.Status.Available = addon.Status.Available ∧
      ((c.PatchUpgradePolicy (c.GetUpgradePolicy w.service { ID := p.ID }).2 req).1.2 = none →
        err = none ∧
          addon1.Status.UpgradePolicy =
            some { Version := addon.Spec.Version,
                   Value := AddonUpgradePolicyValue.Started }) ∧
      ((c.PatchUpgradePolicy (c.GetUpgradePolicy w.service { ID := p.ID }).2 req).1.2 ≠ none →
        err ≠ none ∧ addon1 = addon) := by
  have hrun := handle_eq_of_unknown r c wide addon w p st hreq hc hp hs hv
  rw [hget] at hrun
  simp only [hvalue, if_false] at hrun
  rw [reportUpgradeStarted_eq r c hc wide addon p hp _ _ rfl] at hrun
  refine ⟨_, _, _, _, rfl, hrun, ?_, ?_, ?_, ?_, ?_, ?_⟩
  · simp [World.afterCall]
  · simp [World.afterCall, OcmCall.isPatchOf]
  · cases (c.PatchUpgradePolicy _ _).1.2 <;> simp [Addon.SetUpgradePolicyStatus]
  · cases (c.PatchUpgradePolicy _ _).1.2 <;> simp [Addon.SetUpgradePolicyStatus]
  · intro hok
    simp [World.afterCall, hok, Addon.SetUpgradePolicyStatus]
  · intro hbad
    cases hperr : (c.PatchUpgradePolicy (c.GetUpgradePolicy w.service { ID := p.ID }).2
      { ID := p.ID, Value := ocm.UpgradePolicyValue.Started, Description := _ }).1.2 with
    | none => exact absurd hperr hbad
    | some e => simp [World.afterCall, hperr]

/-- Witness for C17: recorded version empty, addon available, the service answers `Started`:
the pass issues the get and then the `Started` patch for `1.2.0`, and the status becomes
`{version: "1.2.0", value: Started}`. -/
theorem handle_falls_through_after_unknown_version_witness :
    handleUpgradePolicyStatusReporting reconcilerWithStartedService noWide
        (exampleAddon "1.2.0" true
          (some { Version := "", Value := AddonUpgradePolicyValue.Completed })) emptyWorld
      = some (none,
          exampleAddon "1.2.0" true
            (some { Version := "1.2.0", Value := AddonUpgradePolicyValue.Started }),
          { service := ()
            calls := [OcmCall.get { ID := "p1" } { Value := ocm.UpgradePolicyValue.Started } none,
              OcmCall.patch
                { ID := "p1"
                  Value := ocm.UpgradePolicyValue.Started
                  Description := "Upgrading addon to version \"1.2.0\"." } {} none]
            observations := 0 }) ∧
    ∃ err addon1 w1,
      handleUpgradePolicyStatusReporting reconcilerWithStartedService noWide
        (exampleAddon "1.2.0" true
          (some { Version := "", Value := AddonUpgradePolicyValue.Completed })) emptyWorld
        = some (err, addon1, w1) ∧
      err = none ∧
      addon1.Status.UpgradePolicy =
        some { Version := "1.2.0", Value := AddonUpgradePolicyValue.Started } := by
  refine ⟨by decide, ?_⟩
  obtain ⟨req, err, addon1, w1, _, hrun, _, _, _, _, hok, _⟩ :=
    handle_falls_through_after_unknown_version reconcilerWithStartedService startedService
      noWide
      (exampleAddon "1.2.0" true
        (some { Version := "", Value := AddonUpgradePolicyValue.Completed })) emptyWorld
      { ID := "p1" } { Version := "", Value := AddonUpgradePolicyValue.Completed }
      (by decide) rfl rfl rfl rfl rfl (by decide)
  exact ⟨err, addon1, w1, hrun, (hok rfl).1, (hok rfl).2⟩

/-- C18: reporting required and gateway configured: every pass returns, and if it returns no
error then the status it leaves behind is present and its version is `spec.version`
(which is not empty), so it is neither absent, nor empty, nor stale. -/
theorem successful_pass_clears_staleness {σ : Type} (r : AddonReconciler σ)
    (c : ocm.Client σ) (wide : Char → Bool) (addon : Addon) (w : World σ)
    (hreq : requiresReporting addon = true) (hc : r.ocmClient = some c) :
    ∃ err addon1 w1,
      handleUpgradePolicyStatusReporting r wide addon w = some (err, addon1, w1) ∧
      addon1.Spec = addon.Spec ∧
      (err = none →
        ∃ st, addon1.Status.UpgradePolicy = some st ∧
          st.Version = addon1.Spec.Version ∧ st.Version ≠ "") := by
  have hver := requiresReporting_version hreq
  obtain ⟨err, addon1, w1, new, hrun, _, hspec, _, hshape⟩ :=
    handleUpgradePolicyStatusReporting_shape r wide addon w
  refine ⟨err, addon1, w1, hrun, hspec, fun herr => ?_⟩
  have hdone : ∀ val, addon1.Status.UpgradePolicy
      = some { Version := addon.Spec.Version, Value := val } →
      ∃ st, addon1.Status.UpgradePolicy = some st ∧
        st.Version = addon1.Spec.Version ∧ st.Version ≠ "" := by
    intro val hst
    exact ⟨_, hst, by rw [hspec], hver⟩
  have hperr : ∀ perr : Option String, (perr ≠ none → err ≠ none ∧ addon1 = addon) →
      perr = none := by
    intro perr hbad
    by_contra hne
    exact (hbad hne).1 herr
  rcases hshape with ⟨_, _, hsame, _, hwhy⟩ | ⟨req, res, perr, _, _, _, _, hok, hbad⟩ |
    ⟨req, res, perr, _, _, _, _, _, hok, hbad⟩ |
    ⟨req, res, gerr, _, _, _, hget⟩ |
    ⟨greq, gres, req, res, perr, _, _, _, _, _, hok, hbad⟩
  · rcases hwhy with hfalse | hnone | ⟨st, hs, hcur, _⟩
    · rw [hreq] at hfalse
      exact absurd hfalse (by simp)
    · rw [hc] at hnone
      exact absurd hnone (by simp)
    · subst hsame
      exact ⟨st, hs, hcur, by rw [hcur]; exact hver⟩
  · exact hdone _ (hok (hperr perr hbad)).2
  · exact hdone _ (hok (hperr perr hbad)).2
  · rcases hget with ⟨_, hne, _⟩ | ⟨_, _, _, hst⟩
    · exact absurd herr hne
    · exact hdone _ hst
  · exact hdone _ (hok (hperr perr hbad)).2

/-- Witness for C18: a stale status (`1.0.0` against `spec.version = "1.1.0"`) is replaced
by one whose version is `1.1.0`. -/
theorem successful_pass_clears_staleness_witness :
    ∃ err addon1 w1,
      handleUpgradePolicyStatusReporting reconcilerWithGateway noWide
        (exampleAddon "1.1.0" false
          (some { Version := "1.0.0", Value := AddonUpgradePolicyValue.Completed })) emptyWorld
        = some (err, addon1, w1) ∧
      err = none ∧
      ∃ st, addon1.Status.UpgradePolicy = some st ∧ st.Version = "1.1.0" := by
  obtain ⟨err, addon1, w1, hrun, hspec, hst⟩ :=
    successful_pass_clears_staleness reconcilerWithGateway completedService noWide
      (exampleAddon "1.1.0" false
        (some { Version := "1.0.0", Value := AddonUpgradePolicyValue.Completed })) emptyWorld
      (by decide) rfl
  have hconcrete : handleUpgradePolicyStatusReporting reconcilerWithGateway noWide
      (exampleAddon "1.1.0" false
        (some { Version := "1.0.0", Value := AddonUpgradePolicyValue.Completed })) emptyWorld
      = some (none,
          exampleAddon "1.1.0" false
            (some { Version := "1.1.0", Value := AddonUpgradePolicyValue.Started }),
          { service := ()
            calls := [OcmCall.patch
              { ID := "p1"
                Value := ocm.UpgradePolicyValue.Started
                Description := "Upgrading addon to version \"1.1.0\"." } {} none]
            observations := 0 }) := by decide
  have herr : err = none := by
    rw [hconcrete] at hrun
    simp only [Option.some.injEq, Prod.mk.injEq] at hrun
    exact hrun.1.symm
  obtain ⟨st, hs, hv, _⟩ := hst herr
  refine ⟨err, addon1, w1, hrun, herr, st, hs, ?_⟩
  rw [hv, hspec]
  rfl

theorem requiresReporting_false_of_completed (addon : Addon)
    (hs : addon.Status.UpgradePolicy =
      some { Version := addon.Spec.Version, Value := AddonUpgradePolicyValue.Completed }) :
    requiresReporting addon = false := by
  unfold requiresReporting Addon.UpgradeCompleteForCurrentVersion
  simp [hs]

theorem handle_pass_when_calls_succeed {σ : Type} (r : AddonReconciler σ) (c : ocm.Client σ)
    (wide : Char → Bool) (hc : r.ocmClient = some c)
    (hpatch : ∀ s req, (c.PatchUpgradePolicy s req).1.2 = none)
    (hget : ∀ s req, (c.GetUpgradePolicy s req).1.2 = none)
    (addon : Addon) (w : World σ) :
    ∃ addon1 w1,
      handleUpgradePolicyStatusReporting r wide addon w = some (none, addon1, w1) ∧
      addon1.Spec = addon.Spec ∧
      addon1.Status.Available = addon.Status.Available ∧
      ((requiresReporting addon = false ∧ addon1 = addon) ∨
        (requiresReporting addon = true ∧ addon.IsAvailable = false ∧ addon1 = addon ∧
          ∃ st, addon.Status.UpgradePolicy = some st ∧ st.Version = addon.Spec.Version) ∨
        (requiresReporting addon = true ∧
          addon1.Status.UpgradePolicy =
            some { Version := addon.Spec.Version,
                   Value := AddonUpgradePolicyValue.Completed }) ∨
        (requiresReporting addon = true ∧
          (addon.Status.UpgradePolicy = none ∨
            ∃ st, addon.Status.UpgradePolicy = some st ∧ st.Version ≠ addon.Spec.Version) ∧
          addon1.Status.UpgradePolicy =
            some { Version := addon.Spec.Version,
                   Value := AddonUpgradePolicyValue.Started })) := by
  have hstarted : ∀ w0 : World σ, ∀ p, addon.Spec.UpgradePolicy = some p →
      ∃ w1, reportUpgradeStarted r wide addon w0
        = some (none, addon.SetUpgradePolicyStatus AddonUpgradePolicyValue.Started, w1) := by
    intro w0 p hp
    rw [reportUpgradeStarted_eq r c hc wide addon p hp w0 _ rfl]
    simp [hpatch]
  cases hreq : requiresReporting addon with
  | false =>
    exact ⟨addon, w, handle_eq_of_guard_false r wide addon w hreq, rfl, rfl,
      Or.inl ⟨rfl, rfl⟩⟩
  | true =>
    obtain ⟨p, hp⟩ := requiresReporting_policy hreq
    have hver := requiresReporting_version hreq
    cases hs : addon.Status.UpgradePolicy with
    | none =>
      obtain ⟨w1, hrun⟩ := hstarted w p hp
      rw [← handle_eq_of_absent r c wide addon w hreq hc hs] at hrun
      exact ⟨_, w1, hrun, by simp [Addon.SetUpgradePolicyStatus],
        by simp [Addon.SetUpgradePolicyStatus],
        Or.inr (Or.inr (Or.inr ⟨rfl, Or.inl rfl, by simp [Addon.SetUpgradePolicyStatus]⟩))⟩
    | some st =>
      by_cases hv : st.Version = ""
      · have hrun := handle_eq_of_unknown r c wide addon w p st hreq hc hp hs hv
        rw [hget] at hrun
        have hstale : st.Version ≠ addon.Spec.Version := by
          rw [hv]
          exact fun h => hver h.symm
        by_cases hcompl : (c.GetUpgradePolicy w.service { ID := p.ID }).1.1.Value
            = ocm.UpgradePolicyValue.Completed
        · simp only [hcompl, if_true] at hrun
          exact ⟨_, _, hrun, by simp [Addon.SetUpgradePolicyStatus],
            by simp [Addon.SetUpgradePolicyStatus],
            Or.inr (Or.inr (Or.inl ⟨rfl, by simp [Addon.SetUpgradePolicyStatus]⟩))⟩
        · simp only [hcompl, if_false] at hrun
          obtain ⟨w1, hrep⟩ := hstarted
            (w.afterCall r (c.GetUpgradePolicy w.service { ID := p.ID }).2
              (OcmCall.get { ID := p.ID }
                (c.GetUpgradePolicy w.service { ID := p.ID }).1.1 none)) p hp
          rw [hrep] at hrun
          exact ⟨_, w1, hrun, by simp [Addon.SetUpgradePolicyStatus],
            by simp [Addon.SetUpgradePolicyStatus],
            Or.inr (Or.inr (Or.inr ⟨rfl, Or.inr ⟨st, rfl, hstale⟩,
              by simp [Addon.SetUpgradePolicyStatus]⟩))⟩
      · have hrun := handle_eq_of_known r c wide addon w st hreq hc hs hv
        by_cases hstale : st.Version = addon.Spec.Version
        · cases ha : addon.IsAvailable with
          | false =>
            rw [reportStaleOrCompleted_eq_noop r wide addon w st hs hstale ha] at hrun
            exact ⟨addon, w, hrun, rfl, rfl,
              Or.inr (Or.inl ⟨rfl, rfl, rfl, st, rfl, hstale⟩)⟩
          | true =>
            rw [reportStaleOrCompleted_eq_completed r wide addon w st hs hstale ha,
              reportUpgradeCompleted_eq r c hc wide addon p hp w _ rfl] at hrun
            simp only [hpatch, Option.map_none'] at hrun
            exact ⟨_, _, hrun, by simp [Addon.SetUpgradePolicyStatus],
              by simp [Addon.SetUpgradePolicyStatus],
              Or.inr (Or.inr (Or.inl ⟨rfl, by simp [Addon.SetUpgradePolicyStatus]⟩))⟩
        · rw [reportStaleOrCompleted_eq_started r wide addon w st hs hstale] at hrun
          obtain ⟨w1, hrep⟩ := hstarted w p hp
          rw [hrep] at hrun
          exact ⟨_, w1, hrun, by simp [Addon.SetUpgradePolicyStatus],
            by simp [Addon.SetUpgradePolicyStatus],
            Or.inr (Or.inr (Or.inr ⟨rfl, Or.inr ⟨st, rfl, hstale⟩,
              by simp [Addon.SetUpgradePolicyStatus]⟩))⟩

theorem runPasses_of_stable {σ : Type} (r : AddonReconciler σ) (wide : Char → Bool)
    (addon : Addon)
    (hstable : ∀ w : World σ,
      handleUpgradePolicyStatusReporting r wide addon w = some (none, addon, w))
    (n : Nat) (w : World σ) :
    runPasses r wide n addon w = some (addon, w) := by
  induction n with
  | zero => rfl
  | succ k ih =>
    unfold runPasses
    rw [hstable w]
    exact ih

theorem status_completed_of_guard_false (addon : Addon)
    (hreq : requiresReporting addon = false) (hver : addon.Spec.Version ≠ "")
    (hpol : addon.Spec.UpgradePolicy ≠ none) :
    addon.Status.UpgradePolicy =
      some { Version := addon.Spec.Version, Value := AddonUpgradePolicyValue.Completed } := by
  unfold requiresReporting Addon.UpgradeCompleteForCurrentVersion at hreq
  cases hp : addon.Spec.UpgradePolicy with
  | none => exact absurd hp hpol
  | some p =>
    cases hs : addon.Status.UpgradePolicy with
    | none => simp [hp, hs, hver] at hreq
    | some st =>
      simp [hp, hs, hver] at hreq
      cases st with
      | mk version value =>
        simp only at hreq
        rw [hreq.1, hreq.2]

theorem requiresReporting_of_started (addon : Addon) (hver : addon.Spec.Version ≠ "")
    (hpol : addon.Spec.UpgradePolicy ≠ none)
    (hs : addon.Status.UpgradePolicy =
      some { Version := addon.Spec.Version, Value := AddonUpgradePolicyValue.Started }) :
    requiresReporting addon = true := by
  unfold requiresReporting Addon.UpgradeCompleteForCurrentVersion
  cases hp : addon.Spec.UpgradePolicy with
  | none => exact absurd hp hpol
  | some p => simp [hs, hver]

theorem second_pass_when_calls_succeed {σ : Type} (r : AddonReconciler σ) (c : ocm.Client σ)
    (wide : Char → Bool) (hc : r.ocmClient = some c)
    (hpatch : ∀ s req, (c.PatchUpgradePolicy s req).1.2 = none)
    (hget : ∀ s req, (c.GetUpgradePolicy s req).1.2 = none)
    (addon addon1 : Addon) (w w1 : World σ)
    (hrun : handleUpgradePolicyStatusReporting r wide addon w = some (none, addon1, w1)) :
    ∃ addon2 w2,
      handleUpgradePolicyStatusReporting r wide addon1 w1 = some (none, addon2, w2) ∧
      addon2.Spec = addon.Spec ∧
      addon2.Status.Available = addon.Status.Available ∧
      (∀ w0 : World σ,
        handleUpgradePolicyStatusReporting r wide addon2 w0 = some (none, addon2, w0)) ∧
      (addon.IsAvailable = true → addon.Spec.Version ≠ "" → addon.Spec.UpgradePolicy ≠ none →
        addon2.Status.UpgradePolicy =
          some { Version := addon.Spec.Version,
                 Value := AddonUpgradePolicyValue.Completed }) := by
  obtain ⟨a1, w1x, h1, hspec1, hav1, hcase1⟩ :=
    handle_pass_when_calls_succeed r c wide hc hpatch hget addon w
  rw [hrun] at h1
  simp only [Option.some.injEq, Prod.mk.injEq, true_and] at h1
  obtain ⟨ha1, _⟩ := h1
  subst ha1
  obtain ⟨addon2, w2, h2, hspec2, hav2, hcase2⟩ :=
    handle_pass_when_calls_succeed r c wide hc hpatch hget addon1 w1
  have hguard_stable : ∀ a : Addon, requiresReporting a = false → ∀ w0 : World σ,
      handleUpgradePolicyStatusReporting r wide a w0 = some (none, a, w0) :=
    fun a ha w0 => handle_eq_of_guard_false r wide a w0 ha
  have hwait_stable : ∀ a : Addon, requiresReporting a = true → a.IsAvailable = false →
      (∃ st, a.Status.UpgradePolicy = some st ∧ st.Version = a.Spec.Version) →
      ∀ w0 : World σ, handleUpgradePolicyStatusReporting r wide a w0 = some (none, a, w0) := by
    intro a hreq hna ⟨st, hs, hcur⟩ w0
    have hne : st.Version ≠ "" := hcur ▸ requiresReporting_version hreq
    rw [handle_eq_of_known r c wide a w0 st hreq hc hs hne,
      reportStaleOrCompleted_eq_noop r wide a w0 st hs hcur hna]
  -- the status left by the first pass is never absent or stale when the guard still holds
  have hfresh : requiresReporting addon1 = true →
      ¬ (addon1.Status.UpgradePolicy = none ∨
        ∃ st, addon1.Status.UpgradePolicy = some st ∧ st.Version ≠ addon1.Spec.Version) := by
    intro hreq1 hbad
    rcases hcase1 with ⟨hfalse, hsame⟩ | ⟨_, _, hsame, st, hs, hcur⟩ | ⟨_, hdone⟩ |
      ⟨_, _, hstart⟩
    · rw [hsame, hfalse] at hreq1
      exact absurd hreq1 (by simp)
    · rw [hsame] at hbad
      rcases hbad with hnone | ⟨st2, hs2, hne2⟩
      · rw [hs] at hnone
        exact absurd hnone (by simp)
      · rw [hs] at hs2
        have hst : st = st2 := Option.some.inj hs2
        subst hst
        exact hne2 hcur
    · rw [← hspec1] at hdone
      rw [requiresReporting_false_of_completed addon1 hdone] at hreq1
      exact absurd hreq1 (by simp)
    · rcases hbad with hnone | ⟨st2, hs2, hne2⟩
      · rw [hstart] at hnone
        exact absurd hnone (by simp)
      · rw [hstart] at hs2
        have hst := Option.some.inj hs2
        subst hst
        exact hne2 (by rw [hspec1])
  refine ⟨addon2, w2, h2, by rw [hspec2, hspec1], by rw [hav2, hav1], ?_, ?_⟩
  · rcases hcase2 with ⟨hfalse, hsame⟩ | ⟨hreq1, hna, hsame, hcur⟩ | ⟨_, hdone⟩ |
      ⟨hreq1, hbad, _⟩
    · rw [hsame]
      exact hguard_stable addon1 hfalse
    · rw [hsame]
      exact hwait_stable addon1 hreq1 hna hcur
    · rw [← hspec2] at hdone
      exact hguard_stable addon2 (requiresReporting_false_of_completed addon2 hdone)
    · exact absurd hbad (hfresh hreq1)
  · intro havail hver hpol
    have havail1 : addon1.IsAvailable = true := by
      unfold Addon.IsAvailable at havail ⊢
      rw [hav1]
      exact havail
    have hdone1 : addon1.Status.UpgradePolicy =
        some { Version := addon.Spec.Version, Value := AddonUpgradePolicyValue.Completed } →
        addon2.Status.UpgradePolicy =
          some { Version := addon.Spec.Version,
                 Value := AddonUpgradePolicyValue.Completed } := by
      intro hdone
      have hfalse1 : requiresReporting addon1 = false :=
        requiresReporting_false_of_completed addon1 (by rw [hspec1]; exact hdone)
      have h2x := hguard_stable addon1 hfalse1 w1
      rw [h2] at h2x
      simp only [Option.some.injEq, Prod.mk.injEq, true_and] at h2x
      rw [h2x.1]
      exact hdone
    rcases hcase1 with ⟨hfalse, hsame⟩ | ⟨_, hna, _, _⟩ | ⟨_, hdone⟩ | ⟨_, _, hstart⟩
    · apply hdone1
      rw [hsame]
      exact status_completed_of_guard_false addon hfalse hver hpol
    · rw [havail] at hna
      exact absurd hna (by simp)
    · exact hdone1 hdone
    · have hreq1 : requiresReporting addon1 = true :=
        requiresReporting_of_started addon1 (by rw [hspec1]; exact hver)
          (by rw [hspec1]; exact hpol) (by rw [hspec1]; exact hstart)
      rcases hcase2 with ⟨hfalse, _⟩ | ⟨_, hna, _, _⟩ | ⟨_, hdone⟩ | ⟨_, hbad, _⟩
      · rw [hreq1] at hfalse
        exact absurd hfalse (by simp)
      · rw [havail1] at hna
        exact absurd hna (by simp)
      · rw [hspec1] at hdone
        exact hdone
      · exact absurd hbad (hfresh hreq1)

/-- C19, as stated, fails: an available addon at version `1.2.0` whose policy reference is
unset, with a configured gateway whose calls all succeed. Every pass is a no-op from the
start, so the passes converge, but the status reached is the absent one the addon began
with, not `{version: "1.2.0", value: Completed}`. -/
theorem convergence_without_reference_counterexample :
    addonWithoutRef.IsAvailable = true ∧
    runPasses reconcilerWithGateway noWide 2 addonWithoutRef emptyWorld
      = some (addonWithoutRef, emptyWorld) ∧
    runPasses reconcilerWithGateway noWide 3 addonWithoutRef emptyWorld
      = some (addonWithoutRef, emptyWorld) ∧
    addonWithoutRef.Status.UpgradePolicy = none ∧
    addonWithoutRef.Status.UpgradePolicy ≠
      some { Version := addonWithoutRef.Spec.Version,
             Value := AddonUpgradePolicyValue.Completed } :=
  ⟨by decide, by decide, by decide, by decide, by decide⟩

/-- C19, amended: for every addon, with a configured gateway whose calls all succeed, two
consecutive passes return and leave an addon (same spec, same availability) on which
every further pass, from any world, returns no error and changes neither the addon nor
the world (no call is issued); any longer run of passes ends in the same addon and world.
If the addon is available and reporting is enabled for it (`spec.version` non-empty and
the policy reference set), the status reached is `{version: spec.version, value:
Completed}` and `requiresReporting` is false on the addon reached. -/
theorem passes_converge_within_two {σ : Type} (r : AddonReconciler σ) (c : ocm.Client σ)
    (wide : Char → Bool) (addon : Addon) (w : World σ) (hc : r.ocmClient = some c)
    (hpatch : ∀ s req, (c.PatchUpgradePolicy s req).1.2 = none)
    (hget : ∀ s req, (c.GetUpgradePolicy s req).1.2 = none) :
    ∃ addon2 w2,
      runPasses r wide 2 addon w = some (addon2, w2) ∧
      addon2.Spec = addon.Spec ∧
      addon2.Status.Available = addon.Status.Available ∧
      (∀ w0 : World σ,
        handleUpgradePolicyStatusReporting r wide addon2 w0 = some (none, addon2, w0)) ∧
      (∀ k, runPasses r wide (k + 2) addon w = some (addon2, w2)) ∧
      (addon.IsAvailable = true → addon.Spec.Version ≠ "" → addon.Spec.UpgradePolicy ≠ none →
        addon2.Status.UpgradePolicy =
            some { Version := addon.Spec.Version,
                   Value := AddonUpgradePolicyValue.Completed } ∧
          requiresReporting addon2 = false) := by
  obtain ⟨addon1, w1, h1, _, _, _⟩ :=
    handle_pass_when_calls_succeed r c wide hc hpatch hget addon w
  obtain ⟨addon2, w2, h2, hspec, hav, hstable, hdone⟩ :=
    second_pass_when_calls_succeed r c wide hc hpatch hget addon addon1 w w1 h1
  have hswap : ∀ n : Nat, runPasses r wide (n + 2) addon w = runPasses r wide n addon2 w2 := by
    intro n
    show runPasses r wide (n + 1 + 1) addon w = runPasses r wide n addon2 w2
    simp [runPasses, h1, h2]
  refine ⟨addon2, w2, ?_, hspec, hav, hstable, ?_, ?_⟩
  · have h := hswap 0
    simpa [runPasses] using h
  · intro k
    rw [hswap k]
    exact runPasses_of_stable r wide addon2 hstable k w2
  · intro havail hver hpol
    have hst := hdone havail hver hpol
    exact ⟨hst, requiresReporting_false_of_completed addon2 (by rw [hspec]; exact hst)⟩

/-- Witness for C19, amended: an available addon at version `1.2.0` with policy reference and
no status: the first pass reports `Started`, the second `Completed`, and from then on
nothing is issued. -/
theorem passes_converge_within_two_witness :
    runPasses reconcilerWithGateway noWide 2 (exampleAddon "1.2.0" true none) emptyWorld
      = some (exampleAddon "1.2.0" true
            (some { Version := "1.2.0", Value := AddonUpgradePolicyValue.Completed }),
          { service := ()
            calls := [OcmCall.patch
                { ID := "p1"
                  Value := ocm.UpgradePolicyValue.Started
                  Description := "Upgrading addon to version \"1.2.0\"." } {} none,
              OcmCall.patch
                { ID := "p1"
                  Value := ocm.UpgradePolicyValue.Completed
                  Description := "Addon was healthy at least once at version \"1.2.0\"." }
                {} none]
            observations := 0 }) ∧
    ∃ addon2 w2,
      runPasses reconcilerWithGateway noWide 2 (exampleAddon "1.2.0" true none) emptyWorld
        = some (addon2, w2) ∧
      runPasses reconcilerWithGateway noWide 5 (exampleAddon "1.2.0" true none) emptyWorld
        = some (addon2, w2) ∧
      addon2.Status.UpgradePolicy =
        some { Version := "1.2.0", Value := AddonUpgradePolicyValue.Completed } ∧
      requiresReporting addon2 = false := by
  refine ⟨by decide, ?_⟩
  obtain ⟨addon2, w2, h2, _, _, _, hall, hdone⟩ :=
    passes_converge_within_two reconcilerWithGateway completedService noWide
      (exampleAddon "1.2.0" true none) emptyWorld rfl (fun _ _ => rfl) (fun _ _ => rfl)
  obtain ⟨hst, hfalse⟩ := hdone rfl (by decide) (by decide)
  exact ⟨addon2, w2, h2, hall 3, hst, hfalse⟩

theorem pass_on_current_status {σ : Type} (r : AddonReconciler σ) (wide : Char → Bool)
    (addon : Addon) (w : World σ) (st : AddonUpgradePolicyStatus)
    (hs : addon.Status.UpgradePolicy = some st) (hcur : st.Version = addon.Spec.Version) :
    ∃ err addon1 w1 new,
      handleUpgradePolicyStatusReporting r wide addon w = some (err, addon1, w1) ∧
      w1.calls = w.calls ++ new ∧
      (∀ call ∈ new, call.isPatchOf ocm.UpgradePolicyValue.Started = false) ∧
      (new = [] ∨
        (addon.IsAvailable = true ∧
          ∃ req res perr, new = [OcmCall.patch req res perr] ∧
            req.Value = ocm.UpgradePolicyValue.Completed)) ∧
      addon1.Spec = addon.Spec ∧
      ∃ st1, addon1.Status.UpgradePolicy = some st1 ∧ st1.Version = addon.Spec.Version := by
  obtain ⟨err, addon1, w1, new, hrun, hcalls, hspec, _, hshape⟩ :=
    handleUpgradePolicyStatusReporting_shape r wide addon w
  refine ⟨err, addon1, w1, new, hrun, hcalls, ?_⟩
  rcases hshape with ⟨hnew, _, hsame, _, _⟩ | ⟨_, _, _, _, _, _, hwhy, _, _⟩ |
    ⟨req, res, perr, hnew, hval, _, _, ha, hok, hbad⟩ |
    ⟨_, _, _, _, hreq, ⟨st2, hs2, hv2⟩, _⟩ |
    ⟨_, _, _, _, _, _, _, _, hreq, ⟨st2, hs2, hv2⟩, _, _⟩
  · subst hnew
    subst hsame
    exact ⟨by simp, Or.inl rfl, rfl, st, hs, hcur⟩
  · rcases hwhy with hnone | ⟨st2, hs2, _, hstale⟩
    · rw [hs] at hnone
      exact absurd hnone (by simp)
    · rw [hs] at hs2
      have hst := Option.some.inj hs2
      subst hst
      exact absurd hcur hstale
  · subst hnew
    refine ⟨?_, Or.inr ⟨ha, req, res, perr, rfl, hval⟩, hspec, ?_⟩
    · intro call hmem
      simp only [List.mem_singleton] at hmem
      subst hmem
      simp [OcmCall.isPatchOf, hval]
    · cases perr with
      | none => exact ⟨_, (hok rfl).2, rfl⟩
      | some e =>
        rw [(hbad (by simp)).2]
        exact ⟨st, hs, hcur⟩
  · rw [hs] at hs2
    have hst := Option.some.inj hs2
    subst hst
    exact absurd (hcur.symm.trans hv2) (requiresReporting_version hreq)
  · rw [hs] at hs2
    have hst := Option.some.inj hs2
    subst hst
    exact absurd (hcur.symm.trans hv2) (requiresReporting_version hreq)

/-- C20: if a pass issued a `Started` patch that came back without error, the addon it leaves
has the same spec and the status `{version: spec.version, value: Started}`; on that addon,
and on any addon at the same `spec.version` whose recorded version is that version
(whatever its availability and its reconciler), a pass issues no `Started` patch: it issues
either nothing or, when the addon is available, exactly one `Completed` patch, and it
again leaves a status recorded at that version, so the same holds for the pass after it.
And every pass issues at most one patch call and at most one `getPolicy` call. -/
theorem started_is_reported_once {σ : Type} (r : AddonReconciler σ) (wide : Char → Bool)
    (addon addon1 : Addon) (w w1 : World σ) (err : Option String) (new : List OcmCall)
    (req : ocm.UpgradePolicyPatchRequest) (res : ocm.UpgradePolicyPatchResponse)
    (hrun : handleUpgradePolicyStatusReporting r wide addon w = some (err, addon1, w1))
    (hcalls : w1.calls = w.calls ++ new)
    (hmem : OcmCall.patch req res none ∈ new)
    (hval : req.Value = ocm.UpgradePolicyValue.Started) :
    (addon1.Spec = addon.Spec ∧
      addon1.Status.UpgradePolicy =
        some { Version := addon.Spec.Version, Value := AddonUpgradePolicyValue.Started }) ∧
    (∀ (r2 : AddonReconciler σ) (addon2 : Addon) (w2 : World σ),
      addon2.Spec.Version = addon.Spec.Version →
      (∃ st, addon2.Status.UpgradePolicy = some st ∧ st.Version = addon.Spec.Version) →
      ∃ err2 addon3 w3 new2,
        handleUpgradePolicyStatusReporting r2 wide addon2 w2 = some (err2, addon3, w3) ∧
        w3.calls = w2.calls ++ new2 ∧
        (∀ call ∈ new2, call.isPatchOf ocm.UpgradePolicyValue.Started = false) ∧
        (new2 = [] ∨
          (addon2.IsAvailable = true ∧
            ∃ req2 res2 perr2, new2 = [OcmCall.patch req2 res2 perr2] ∧
              req2.Value = ocm.UpgradePolicyValue.Completed)) ∧
        addon3.Spec = addon2.Spec ∧
        ∃ st3, addon3.Status.UpgradePolicy = some st3 ∧ st3.Version = addon.Spec.Version) ∧
    (∀ (r0 : AddonReconciler σ) (addon0 : Addon) (w0 : World σ),
      ∃ err0 addon9 w9 new0,
        handleUpgradePolicyStatusReporting r0 wide addon0 w0 = some (err0, addon9, w9) ∧
        w9.calls = w0.calls ++ new0 ∧
        (new0.filter OcmCall.isPatch).length ≤ 1 ∧
        (new0.filter OcmCall.isGet).length ≤ 1) := by
  refine ⟨?_, ?_, ?_⟩
  · obtain ⟨err9, addon9, w9, new9, hrun9, hcalls9, hspec, _, hshape⟩ :=
      handleUpgradePolicyStatusReporting_shape r wide addon w
    rw [hrun] at hrun9
    simp only [Option.some.injEq, Prod.mk.injEq] at hrun9
    obtain ⟨herr, haddon, hw⟩ := hrun9
    subst herr
    subst haddon
    subst hw
    have hnew : new9 = new := List.append_cancel_left (hcalls9.symm.trans hcalls)
    subst hnew
    refine ⟨hspec, ?_⟩
    rcases hshape with ⟨hnew, _⟩ | ⟨req1, res1, perr1, hnew, _, _, _, hok, _⟩ |
      ⟨req1, res1, perr1, hnew, hval1, _⟩ |
      ⟨_, _, _, hnew, _⟩ |
      ⟨_, _, req1, res1, perr1, hnew, _, _, _, _, hok, _⟩
    · rw [hnew] at hmem
      simp at hmem
    · rw [hnew] at hmem
      simp only [List.mem_singleton, OcmCall.patch.injEq] at hmem
      exact (hok hmem.2.2.symm).2
    · rw [hnew] at hmem
      simp only [List.mem_singleton, OcmCall.patch.injEq] at hmem
      rw [hmem.1, hval1] at hval
      exact absurd hval (by simp)
    · rw [hnew] at hmem
      simp at hmem
    · rw [hnew] at hmem
      simp only [List.mem_cons, reduceCtorEq, false_or, List.mem_singleton,
        OcmCall.patch.injEq, List.not_mem_nil, or_false] at hmem
      exact (hok hmem.2.2.symm).2
  · intro r2 addon2 w2 hver ⟨st, hs, hcur⟩
    obtain ⟨err2, addon3, w3, new2, hrun2, hcalls2, hno, hform, hspec3, st3, hs3, hv3⟩ :=
      pass_on_current_status r2 wide addon2 w2 st hs (hcur.trans hver.symm)
    exact ⟨err2, addon3, w3, new2, hrun2, hcalls2, hno, hform, hspec3, st3, hs3,
      hv3.trans hver⟩
  · intro r0 addon0 w0
    obtain ⟨err0, addon9, w9, new0, hrun0, hcalls0, _, _, hshape⟩ :=
      handleUpgradePolicyStatusReporting_shape r0 wide addon0 w0
    refine ⟨err0, addon9, w9, new0, hrun0, hcalls0, ?_⟩
    rcases hshape with ⟨hnew, _⟩ | ⟨_, _, _, hnew, _⟩ | ⟨_, _, _, hnew, _⟩ |
      ⟨_, _, _, hnew, _⟩ | ⟨_, _, _, _, _, hnew, _⟩ <;>
    · subst hnew
      simp [List.filter, OcmCall.isPatch, OcmCall.isGet]

/-- Witness for C20: the pass on an addon without status reports `Started` for `1.2.0`; the
next pass on the addon it leaves, now available, issues exactly one `Completed` patch. -/
theorem started_is_reported_once_witness :
    ∃ err2 addon3 w3 new2,
      handleUpgradePolicyStatusReporting reconcilerWithGateway noWide
        (exampleAddon "1.2.0" true
          (some { Version := "1.2.0", Value := AddonUpgradePolicyValue.Started }))
        emptyWorld = some (err2, addon3, w3) ∧
      w3.calls = emptyWorld.calls ++ new2 ∧
      (∀ call ∈ new2, call.isPatchOf ocm.UpgradePolicyValue.Started = false) ∧
      new2 = [OcmCall.patch
        { ID := "p1"
          Value := ocm.UpgradePolicyValue.Completed
          Description := "Addon was healthy at least once at version \"1.2.0\"." }
        {} none] := by
  have hfirst : handleUpgradePolicyStatusReporting reconcilerWithGateway noWide
      (exampleAddon "1.2.0" false none) emptyWorld
      = some (none,
          exampleAddon "1.2.0" false
            (some { Version := "1.2.0", Value := AddonUpgradePolicyValue.Started }),
          { service := ()
            calls := [OcmCall.patch
              { ID := "p1"
                Value := ocm.UpgradePolicyValue.Started
                Description := "Upgrading addon to version \"1.2.0\"." } {} none]
            observations := 0 }) := by decide
  obtain ⟨_, hlater, _⟩ :=
    started_is_reported_once reconcilerWithGateway noWide (exampleAddon "1.2.0" false none)
      _ emptyWorld _ none
      [OcmCall.patch
        { ID := "p1"
          Value := ocm.UpgradePolicyValue.Started
          Description := "Upgrading addon to version \"1.2.0\"." } {} none]
      { ID := "p1"
        Value := ocm.UpgradePolicyValue.Started
        Description := "Upgrading addon to version \"1.2.0\"." } {}
      hfirst rfl (by simp) rfl
  obtain ⟨err2, addon3, w3, new2, hrun2, hcalls2, hno, _, _, _⟩ :=
    hlater reconcilerWithGateway
      (exampleAddon "1.2.0" true
        (some { Version := "1.2.0", Value := AddonUpgradePolicyValue.Started }))
      emptyWorld rfl ⟨_, rfl, rfl⟩
  have hconcrete : handleUpgradePolicyStatusReporting reconcilerWithGateway noWide
      (exampleAddon "1.2.0" true
        (some { Version := "1.2.0", Value := AddonUpgradePolicyValue.Started })) emptyWorld
      = some (none,
          exampleAddon "1.2.0" true
            (some { Version := "1.2.0", Value := AddonUpgradePolicyValue.Completed }),
          { service := ()
            calls := [OcmCall.patch
              { ID := "p1"
                Value := ocm.UpgradePolicyValue.Completed
                Description := "Addon was healthy at least once at version \"1.2.0\"." }
              {} none]
            observations := 0 }) := by decide
  refine ⟨err2, addon3, w3, new2, hrun2, hcalls2, hno, ?_⟩
  rw [hconcrete] at hrun2
  simp only [Option.some.injEq, Prod.mk.injEq] at hrun2
  obtain ⟨_, _, hw⟩ := hrun2
  rw [← hw] at hcalls2
  simpa [emptyWorld] using hcalls2.symm

end addon

namespace addon

open addonsv1alpha1

theorem installTarget_of_valid (install : AddonInstallSpec) (ns : String) (hns : ns ≠ "")
    (hvalid :
      (install.Type_ = AddonInstallType.OLMOwnNamespace ∧
        ∃ cfg, install.OLMOwnNamespace = some cfg ∧ cfg.Namespace = ns) ∨
      (install.Type_ = AddonInstallType.OLMAllNamespaces ∧
        ∃ cfg, install.OLMAllNamespaces = some cfg ∧ cfg.Namespace = ns)) :
    installTarget install =
      some (ns, if install.Type_ = AddonInstallType.OLMOwnNamespace then some [ns] else none) := by
  unfold installTarget
  rcases hvalid with ⟨htype, cfg, hcfg, hcns⟩ | ⟨htype, cfg, hcfg, hcns⟩
  · subst hcns
    simp [htype, hcfg, hns]
  · subst hcns
    simp [htype, hcfg, hns]

theorem installTarget_of_invalid (install : AddonInstallSpec)
    (hinvalid :
      (install.Type_ = AddonInstallType.OLMOwnNamespace ∧
        (install.OLMOwnNamespace = none ∨
          ∃ cfg, install.OLMOwnNamespace = some cfg ∧ cfg.Namespace = "")) ∨
      (install.Type_ = AddonInstallType.OLMAllNamespaces ∧
        (install.OLMAllNamespaces = none ∨
          ∃ cfg, install.OLMAllNamespaces = some cfg ∧ cfg.Namespace = "")) ∨
      (∃ tag, install.Type_ = AddonInstallType.other tag)) :
    installTarget install = none := by
  unfold installTarget
  rcases hinvalid with ⟨htype, hnone | ⟨cfg, hcfg, hcns⟩⟩ |
    ⟨htype, hnone | ⟨cfg, hcfg, hcns⟩⟩ | ⟨tag, htype⟩
  · simp [htype, hnone]
  · simp [htype, hcfg, hcns]
  · simp [htype, hnone]
  · simp [htype, hcfg, hcns]
  · simp [htype]

theorem reconcileOperatorGroup_of_notFound {τ : Type} (r : olmReconciler τ)
    (desired : operatorsv1.OperatorGroup) (w : Cluster τ)
    (hget : (r.client.Get w.store
      { Name := desired.Name, Namespace := desired.Namespace }).1 = client.GetResult.notFound) :
    reconcileOperatorGroup r desired w =
      ((r.client.Create (r.client.Get w.store
          { Name := desired.Name, Namespace := desired.Namespace }).2 desired).1,
        { store := (r.client.Create (r.client.Get w.store
            { Name := desired.Name, Namespace := desired.Namespace }).2 desired).2
          calls := w.calls ++
            [StoreCall.get { Name := desired.Name, Namespace := desired.Namespace }
                client.GetResult.notFound,
              StoreCall.create desired (r.client.Create (r.client.Get w.store
                { Name := desired.Name, Namespace := desired.Namespace }).2 desired).1] }) := by
  unfold reconcileOperatorGroup
  simp [hget]

theorem reconcileOperatorGroup_of_found {τ : Type} (r : olmReconciler τ)
    (desired existing : operatorsv1.OperatorGroup) (w : Cluster τ)
    (hget : (r.client.Get w.store { Name := desired.Name, Namespace := desired.Namespace }).1
      = client.GetResult.found existing) :
    reconcileOperatorGroup r desired w =
      if mergeOperatorGroup desired existing = existing then
        (none,
          { store := (r.client.Get w.store
              { Name := desired.Name, Namespace := desired.Namespace }).2
            calls := w.calls ++
              [StoreCall.get { Name := desired.Name, Namespace := desired.Namespace }
                (client.GetResult.found existing)] })
      else
        ((r.client.Update (r.client.Get w.store
            { Name := desired.Name, Namespace := desired.Namespace }).2
            (mergeOperatorGroup desired existing)).1,
          { store := (r.client.Update (r.client.Get w.store
              { Name := desired.Name, Namespace := desired.Namespace }).2
              (mergeOperatorGroup desired existing)).2
            calls := w.calls ++
              [StoreCall.get { Name := desired.Name, Namespace := desired.Namespace }
                  (client.GetResult.found existing),
                StoreCall.update (mergeOperatorGroup desired existing)
                  (r.client.Update (r.client.Get w.store
                    { Name := desired.Name, Namespace := desired.Namespace }).2
                    (mergeOperatorGroup desired existing)).1] }) := by
  unfold reconcileOperatorGroup
  simp only [hget]
  by_cases hsame : mergeOperatorGroup desired existing = existing <;> simp [hsame]

theorem mergeOperatorGroup_eq_iff (desired existing : operatorsv1.OperatorGroup) :
    mergeOperatorGroup desired existing = existing ↔
      existing.Spec.TargetNamespaces = desired.Spec.TargetNamespaces ∧
        existing.OwnerRef = desired.OwnerRef := by
  cases existing with
  | mk name ns spec owner =>
    cases spec with
    | mk tns =>
      simp [mergeOperatorGroup]
      constructor
      · rintro ⟨h1, h2⟩
        exact ⟨h1.symm, h2.symm⟩
      · rintro ⟨h1, h2⟩
        exact ⟨h1.symm, h2.symm⟩

/-- C13, as stated, fails: a valid *OwnNamespace* configuration, the fetch reports not-found,
but the store refuses the create. `ensureOperatorGroup` issues its one create, for the
object with the expected name, namespace and target namespaces, and returns the fault of
that create instead of no fault. -/
theorem ensure_create_refused_counterexample :
    (refusingStore.Get () { Name := "og", Namespace := "addon-system" }).1
      = client.GetResult.notFound ∧
    ensureOperatorGroup "og" { client := refusingStore } (installAddon ownNamespaceInstall)
        { store := (), calls := [] }
      = ((requeueResult.resultNil, some "create refused"),
          installAddon ownNamespaceInstall,
          { store := ()
            calls :=
              [StoreCall.get { Name := "og", Namespace := "addon-system" }
                  client.GetResult.notFound,
                StoreCall.create
                  { Name := "og"
                    Namespace := "addon-system"
                    Spec := { TargetNamespaces := some ["addon-system"] }
                    OwnerRef := some "addon-1" }
                  (some "create refused")] }) ∧
    (ensureOperatorGroup "og" { client := refusingStore } (installAddon ownNamespaceInstall)
        { store := (), calls := [] }).1.2 ≠ none :=
  ⟨by decide, by decide, by decide⟩

/-- C13, amended: for every valid install configuration (*OwnNamespace* or *AllNamespaces*
with the sub-config present and a non-empty namespace), when the fetch of the object of
the default name in that namespace reports not-found, `ensureOperatorGroup` issues the
fetch and then exactly one create, leaves the addon as it was, and returns `resultNil`
with the fault of the create, so with no fault when the create succeeds. The created
object has the default name, the configured namespace, the addon as owner, and
`targetNamespaces` equal to `[namespace]` for *OwnNamespace* and absent for
*AllNamespaces*. -/
theorem ensure_creates_when_not_found {τ : Type} (DefaultOperatorGroupName : String)
    (r : olmReconciler τ) (addon : Addon) (w : Cluster τ) (ns : String) (hns : ns ≠ "")
    (hvalid :
      (addon.Spec.Install.Type_ = AddonInstallType.OLMOwnNamespace ∧
        ∃ cfg, addon.Spec.Install.OLMOwnNamespace = some cfg ∧ cfg.Namespace = ns) ∨
      (addon.Spec.Install.Type_ = AddonInstallType.OLMAllNamespaces ∧
        ∃ cfg, addon.Spec.Install.OLMAllNamespaces = some cfg ∧ cfg.Namespace = ns))
    (hget : (r.client.Get w.store { Name := DefaultOperatorGroupName, Namespace := ns }).1
      = client.GetResult.notFound) :
    ∃ created fault w1,
      ensureOperatorGroup DefaultOperatorGroupName r addon w
        = ((requeueResult.resultNil, fault), addon, w1) ∧
      w1.calls = w.calls ++
        [StoreCall.get { Name := DefaultOperatorGroupName, Namespace := ns }
            client.GetResult.notFound,
          StoreCall.create created fault] ∧
      fault = (r.client.Create
        (r.client.Get w.store { Name := DefaultOperatorGroupName, Namespace := ns }).2
        created).1 ∧
      created.Name = DefaultOperatorGroupName ∧
      created.Namespace = ns ∧
      created.OwnerRef = some addon.Name ∧
      (addon.Spec.Install.Type_ = AddonInstallType.OLMOwnNamespace →
        created.Spec.TargetNamespaces = some [ns]) ∧
      (addon.Spec.Install.Type_ = AddonInstallType.OLMAllNamespaces →
        created.Spec.TargetNamespaces = none) := by
  have htarget := installTarget_of_valid addon.Spec.Install ns hns hvalid
  have hrun : ensureOperatorGroup DefaultOperatorGroupName r addon w
      = ((requeueResult.resultNil,
            (reconcileOperatorGroup r
              { Name := DefaultOperatorGroupName
                Namespace := ns
                Spec := { TargetNamespaces :=
                  if addon.Spec.Install.Type_ = AddonInstallType.OLMOwnNamespace
                    then some [ns] else none }
                OwnerRef := some addon.Name } w).1),
          addon,
          (reconcileOperatorGroup r
            { Name := DefaultOperatorGroupName
              Namespace := ns
              Spec := { TargetNamespaces :=
                if addon.Spec.Install.Type_ = AddonInstallType.OLMOwnNamespace
                  then some [ns] else none }
              OwnerRef := some addon.Name } w).2) := by
    unfold ensureOperatorGroup
    simp [htarget]
  rw [hrun, reconcileOperatorGroup_of_notFound r _ w hget]
  refine ⟨_, _, _, rfl, rfl, rfl, rfl, rfl, rfl, ?_, ?_⟩
  · intro htype
    simp [htype]
  · intro htype
    simp [htype]

/-- Witness for C13, amended: the *OwnNamespace* and the *AllNamespaces* configuration of the
test, namespace `addon-system`, on an empty store that accepts the create. -/
theorem ensure_creates_when_not_found_witness :
    ensureOperatorGroup "og" { client := memoryStore } (installAddon allNamespacesInstall)
        { store := [], calls := [] }
      = ((requeueResult.resultNil, none),
          installAddon allNamespacesInstall,
          { store := [{ Name := "og", Namespace := "addon-system", OwnerRef := some "addon-1" }]
            calls :=
              [StoreCall.get { Name := "og", Namespace := "addon-system" }
                  client.GetResult.notFound,
                StoreCall.create
                  { Name := "og", Namespace := "addon-system", OwnerRef := some "addon-1" }
                  none] }) ∧
    ∃ (created : operatorsv1.OperatorGroup) (fault : Option String)
        (w1 : Cluster (List operatorsv1.OperatorGroup)),
      ensureOperatorGroup "og" { client := memoryStore } (installAddon ownNamespaceInstall)
          { store := [], calls := [] }
        = ((requeueResult.resultNil, fault), installAddon ownNamespaceInstall, w1) ∧
      fault = none ∧
      created.Name = "og" ∧
      created.Namespace = "addon-system" ∧
      created.Spec.TargetNamespaces = some ["addon-system"] := by
  refine ⟨by decide, ?_⟩
  obtain ⟨created, fault, w1, hrun, _, hfault, hname, hnamespace, _, hown, _⟩ :=
    ensure_creates_when_not_found "og" { client := memoryStore }
      (installAddon ownNamespaceInstall) { store := [], calls := [] } "addon-system"
      (by decide) (Or.inl ⟨rfl, _, rfl, rfl⟩) rfl
  exact ⟨created, fault, w1, hrun, hfault, hname, hnamespace, hown rfl⟩

/-- C14: for every addon whose install configuration is invalid (declared *OwnNamespace* or
*AllNamespaces* with the sub-config missing or with an empty namespace, or any other
tag), `ensureOperatorGroup` returns `resultStop` with no fault, leaves the store and the
trace of store calls as they were (no get, create or update), and sets the condition
`Available` to false with the reason "configuration error"; nothing else of the addon
changes. -/
theorem ensure_stops_on_invalid_config {τ : Type} (DefaultOperatorGroupName : String)
    (r : olmReconciler τ) (addon : Addon) (w : Cluster τ)
    (hinvalid :
      (addon.Spec.Install.Type_ = AddonInstallType.OLMOwnNamespace ∧
        (addon.Spec.Install.OLMOwnNamespace = none ∨
          ∃ cfg, addon.Spec.Install.OLMOwnNamespace = some cfg ∧ cfg.Namespace = "")) ∨
      (addon.Spec.Install.Type_ = AddonInstallType.OLMAllNamespaces ∧
        (addon.Spec.Install.OLMAllNamespaces = none ∨
          ∃ cfg, addon.Spec.Install.OLMAllNamespaces = some cfg ∧ cfg.Namespace = "")) ∨
      (∃ tag, addon.Spec.Install.Type_ = AddonInstallType.other tag)) :
    ∃ addon1,
      ensureOperatorGroup DefaultOperatorGroupName r addon w
        = ((requeueResult.resultStop, none), addon1, w) ∧
      addon1.Status.Available = false ∧
      addon1.IsAvailable = false ∧
      addon1.Status.AvailableReason = some "configuration error" ∧
      addon1.Status.UpgradePolicy = addon.Status.UpgradePolicy ∧
      addon1.Spec = addon.Spec ∧
      addon1.Name = addon.Name := by
  have htarget := installTarget_of_invalid addon.Spec.Install hinvalid
  refine ⟨{ addon with Status := { addon.Status with
      Available := false
      AvailableReason := some AddonReasonConfigError } }, ?_, rfl, rfl, rfl, rfl, rfl, rfl⟩
  unfold ensureOperatorGroup
  simp [htarget]

/-- Witness for C14: the five shapes of the test, on a store that would refuse every write;
each stops without a call and records the configuration error. -/
theorem ensure_stops_on_invalid_config_witness :
    (∃ addon1,
      ensureOperatorGroup "og" { client := refusingStore }
          (installAddon { Type_ := AddonInstallType.OLMOwnNamespace })
          { store := (), calls := [] }
        = ((requeueResult.resultStop, none), addon1, { store := (), calls := [] }) ∧
      addon1.Status.Available = false ∧
      addon1.Status.AvailableReason = some "configuration error") ∧
    (∃ addon1,
      ensureOperatorGroup "og" { client := refusingStore }
          (installAddon { Type_ := AddonInstallType.OLMOwnNamespace, OLMOwnNamespace := some {} })
          { store := (), calls := [] }
        = ((requeueResult.resultStop, none), addon1, { store := (), calls := [] }) ∧
      addon1.Status.Available = false ∧
      addon1.Status.AvailableReason = some "configuration error") ∧
    (∃ addon1,
      ensureOperatorGroup "og" { client := refusingStore }
          (installAddon { Type_ := AddonInstallType.OLMAllNamespaces })
          { store := (), calls := [] }
        = ((requeueResult.resultStop, none), addon1, { store := (), calls := [] }) ∧
      addon1.Status.Available = false ∧
      addon1.Status.AvailableReason = some "configuration error") ∧
    (∃ addon1,
      ensureOperatorGroup "og" { client := refusingStore }
          (installAddon
            { Type_ := AddonInstallType.OLMAllNamespaces, OLMAllNamespaces := some {} })
          { store := (), calls := [] }
        = ((requeueResult.resultStop, none), addon1, { store := (), calls := [] }) ∧
      addon1.Status.Available = false ∧
      addon1.Status.AvailableReason = some "configuration error") ∧
    (∃ addon1,
      ensureOperatorGroup "og" { client := refusingStore }
          (installAddon { Type_ := AddonInstallType.other "something something" })
          { store := (), calls := [] }
        = ((requeueResult.resultStop, none), addon1, { store := (), calls := [] }) ∧
      addon1.Status.Available = false ∧
      addon1.Status.AvailableReason = some "configuration error") := by
  refine ⟨?_, ?_, ?_, ?_, ?_⟩
  · obtain ⟨addon1, hrun, hav, _, hreason, _⟩ :=
      ensure_stops_on_invalid_config "og" { client := refusingStore }
        (installAddon { Type_ := AddonInstallType.OLMOwnNamespace })
        { store := (), calls := [] } (Or.inl ⟨rfl, Or.inl rfl⟩)
    exact ⟨addon1, hrun, hav, hreason⟩
  · obtain ⟨addon1, hrun, hav, _, hreason, _⟩ :=
      ensure_stops_on_invalid_config "og" { client := refusingStore }
        (installAddon
          { Type_ := AddonInstallType.OLMOwnNamespace, OLMOwnNamespace := some {} })
        { store := (), calls := [] } (Or.inl ⟨rfl, Or.inr ⟨_, rfl, rfl⟩⟩)
    exact ⟨addon1, hrun, hav, hreason⟩
  · obtain ⟨addon1, hrun, hav, _, hreason, _⟩ :=
      ensure_stops_on_invalid_config "og" { client := refusingStore }
        (installAddon { Type_ := AddonInstallType.OLMAllNamespaces })
        { store := (), calls := [] } (Or.inr (Or.inl ⟨rfl, Or.inl rfl⟩))
    exact ⟨addon1, hrun, hav, hreason⟩
  · obtain ⟨addon1, hrun, hav, _, hreason, _⟩ :=
      ensure_stops_on_invalid_config "og" { client := refusingStore }
        (installAddon
          { Type_ := AddonInstallType.OLMAllNamespaces, OLMAllNamespaces := some {} })
        { store := (), calls := [] } (Or.inr (Or.inl ⟨rfl, Or.inr ⟨_, rfl, rfl⟩⟩))
    exact ⟨addon1, hrun, hav, hreason⟩
  · obtain ⟨addon1, hrun, hav, _, hreason, _⟩ :=
      ensure_stops_on_invalid_config "og" { client := refusingStore }
        (installAddon { Type_ := AddonInstallType.other "something something" })
        { store := (), calls := [] } (Or.inr (Or.inr ⟨_, rfl⟩))
    exact ⟨addon1, hrun, hav, hreason⟩

/-- C15: adoption. For every desired grouping resource carrying the addon's owner reference and
every existing object, fetched from the store, that lacks it, `reconcileOperatorGroup`
issues the fetch and then exactly one update and nothing else (no create); the object
of the update is the existing one with the addon's owner reference and the desired
`targetNamespaces`; the fault returned is that of the update, so none when the update
succeeds. Nothing is assumed about the spec of the existing object. -/
theorem reconcile_adopts_unowned {τ : Type} (r : olmReconciler τ)
    (desired existing : operatorsv1.OperatorGroup) (w : Cluster τ) (owner : String)
    (hget : (r.client.Get w.store { Name := desired.Name, Namespace := desired.Namespace }).1
      = client.GetResult.found existing)
    (hown : desired.OwnerRef = some owner) (hlacks : existing.OwnerRef ≠ some owner) :
    ∃ updated fault w1,
      reconcileOperatorGroup r desired w = (fault, w1) ∧
      w1.calls = w.calls ++
        [StoreCall.get { Name := desired.Name, Namespace := desired.Namespace }
            (client.GetResult.found existing),
          StoreCall.update updated fault] ∧
      fault = (r.client.Update
        (r.client.Get w.store { Name := desired.Name, Namespace := desired.Namespace }).2
        updated).1 ∧
      updated.OwnerRef = some owner ∧
      updated.Spec.TargetNamespaces = desired.Spec.TargetNamespaces ∧
      updated.Name = existing.Name ∧
      updated.Namespace = existing.Namespace := by
  have hdiff : ¬ mergeOperatorGroup desired existing = existing := by
    rw [mergeOperatorGroup_eq_iff]
    rintro ⟨_, howned⟩
    exact hlacks (howned.trans hown)
  rw [reconcileOperatorGroup_of_found r desired existing w hget]
  simp only [hdiff, if_false]
  exact ⟨_, _, _, rfl, rfl, rfl, hown, rfl, rfl, rfl⟩

/-- Witness for C15: an object without owner and without target namespaces sits in the store;
the one update writes the owner `addon-1` and the desired target namespaces. -/
theorem reconcile_adopts_unowned_witness :
    reconcileOperatorGroup { client := memoryStore }
        { Name := "og"
          Namespace := "ns"
          Spec := { TargetNamespaces := some ["ns"] }
          OwnerRef := some "addon-1" }
        { store := [{ Name := "og", Namespace := "ns" }], calls := [] }
      = (none,
          { store := [{ Name := "og"
                        Namespace := "ns"
                        Spec := { TargetNamespaces := some ["ns"] }
                        OwnerRef := some "addon-1" }]
            calls :=
              [StoreCall.get { Name := "og", Namespace := "ns" }
                  (client.GetResult.found { Name := "og", Namespace := "ns" }),
                StoreCall.update
                  { Name := "og"
                    Namespace := "ns"
                    Spec := { TargetNamespaces := some ["ns"] }
                    OwnerRef := some "addon-1" } none] }) ∧
    ∃ (updated : operatorsv1.OperatorGroup) (fault : Option String)
        (w1 : Cluster (List operatorsv1.OperatorGroup)),
      reconcileOperatorGroup { client := memoryStore }
          { Name := "og"
            Namespace := "ns"
            Spec := { TargetNamespaces := some ["ns"] }
            OwnerRef := some "addon-1" }
          { store := [{ Name := "og", Namespace := "ns" }], calls := [] }
        = (fault, w1) ∧
      fault = none ∧
      updated.OwnerRef = some "addon-1" ∧
      updated.Spec.TargetNamespaces = some ["ns"] := by
  refine ⟨by decide, ?_⟩
  obtain ⟨updated, fault, w1, hrun, _, hfault, howner, htargets, _, _⟩ :=
    reconcile_adopts_unowned { client := memoryStore }
      { Name := "og"
        Namespace := "ns"
        Spec := { TargetNamespaces := some ["ns"] }
        OwnerRef := some "addon-1" }
      { Name := "og", Namespace := "ns" }
      { store := [{ Name := "og", Namespace := "ns" }], calls := [] } "addon-1"
      (by decide) rfl (by decide)
  exact ⟨updated, fault, w1, hrun, hfault, howner, htargets⟩

/-- C16: idempotence. If the existing object fetched from the store carries the owner reference
of the desired one and its spec equals the desired spec, `reconcileOperatorGroup` returns
no fault and issues the fetch and nothing else: no update, no create. Consequently a
second reconcile of the same desired object that fetches what a first reconcile wrote
(the merged object of its update, or the desired object of its create) performs no
write either. -/
theorem reconcile_is_idempotent {τ : Type} (r : olmReconciler τ)
    (desired existing : operatorsv1.OperatorGroup) (w : Cluster τ)
    (hget : (r.client.Get w.store { Name := desired.Name, Namespace := desired.Namespace }).1
      = client.GetResult.found existing)
    (hown : existing.OwnerRef = desired.OwnerRef) (hspec : existing.Spec = desired.Spec) :
    (reconcileOperatorGroup r desired w =
      (none,
        { store := (r.client.Get w.store
            { Name := desired.Name, Namespace := desired.Namespace }).2
          calls := w.calls ++
            [StoreCall.get { Name := desired.Name, Namespace := desired.Namespace }
              (client.GetResult.found existing)] })) ∧
    (∀ call ∈ (reconcileOperatorGroup r desired w).2.calls.drop w.calls.length,
      call.isWrite = false) ∧
    (∀ (r2 : olmReconciler τ) (w2 : Cluster τ) (written : operatorsv1.OperatorGroup),
      (written = desired ∨ ∃ before, written = mergeOperatorGroup desired before) →
      (r2.client.Get w2.store { Name := desired.Name, Namespace := desired.Namespace }).1
        = client.GetResult.found written →
      reconcileOperatorGroup r2 desired w2 =
        (none,
          { store := (r2.client.Get w2.store
              { Name := desired.Name, Namespace := desired.Namespace }).2
            calls := w2.calls ++
              [StoreCall.get { Name := desired.Name, Namespace := desired.Namespace }
                (client.GetResult.found written)] })) := by
  have hquiet : ∀ (r0 : olmReconciler τ) (w0 : Cluster τ) (found : operatorsv1.OperatorGroup),
      (r0.client.Get w0.store { Name := desired.Name, Namespace := desired.Namespace }).1
        = client.GetResult.found found →
      found.Spec.TargetNamespaces = desired.Spec.TargetNamespaces →
      found.OwnerRef = desired.OwnerRef →
      reconcileOperatorGroup r0 desired w0 =
        (none,
          { store := (r0.client.Get w0.store
              { Name := desired.Name, Namespace := desired.Namespace }).2
            calls := w0.calls ++
              [StoreCall.get { Name := desired.Name, Namespace := desired.Namespace }
                (client.GetResult.found found)] }) := by
    intro r0 w0 found hfound htargets howner
    have hsame : mergeOperatorGroup desired found = found :=
      (mergeOperatorGroup_eq_iff desired found).2 ⟨htargets, howner⟩
    rw [reconcileOperatorGroup_of_found r0 desired found w0 hfound]
    simp [hsame]
  have hfirst := hquiet r w existing hget (by rw [hspec]) hown
  refine ⟨hfirst, ?_, ?_⟩
  · rw [hfirst]
    simp [StoreCall.isWrite]
  · intro r2 w2 written hwritten hfound
    rcases hwritten with hdesired | ⟨before, hmerged⟩
    · subst hdesired
      exact hquiet r2 w2 written hfound rfl rfl
    · subst hmerged
      exact hquiet r2 w2 _ hfound rfl rfl

/-- Witness for C16: the store holds the object already owned by `addon-1` with the desired
target namespaces; the reconcile fetches it and writes nothing. Run after a reconcile
that adopted an object without owner, the second reconcile writes nothing either. -/
theorem reconcile_is_idempotent_witness :
    reconcileOperatorGroup { client := memoryStore }
        { Name := "og"
          Namespace := "ns"
          Spec := { TargetNamespaces := some ["ns"] }
          OwnerRef := some "addon-1" }
        (reconcileOperatorGroup { client := memoryStore }
          { Name := "og"
            Namespace := "ns"
            Spec := { TargetNamespaces := some ["ns"] }
            OwnerRef := some "addon-1" }
          { store := [{ Name := "og", Namespace := "ns" }], calls := [] }).2
      = (none,
          { store := [{ Name := "og"
                        Namespace := "ns"
                        Spec := { TargetNamespaces := some ["ns"] }
                        OwnerRef := some "addon-1" }]
            calls :=
              [StoreCall.get { Name := "og", Namespace := "ns" }
                  (client.GetResult.found { Name := "og", Namespace := "ns" }),
                StoreCall.update
                  { Name := "og"
                    Namespace := "ns"
                    Spec := { TargetNamespaces := some ["ns"] }
                    OwnerRef := some "addon-1" } none,
                StoreCall.get { Name := "og", Namespace := "ns" }
                  (client.GetResult.found
                    { Name := "og"
                      Namespace := "ns"
                      Spec := { TargetNamespaces := some ["ns"] }
                      OwnerRef := some "addon-1" })] }) ∧
    reconcileOperatorGroup { client := memoryStore }
        { Name := "og"
          Namespace := "ns"
          Spec := { TargetNamespaces := some ["ns"] }
          OwnerRef := some "addon-1" }
        { store := [{ Name := "og"
                      Namespace := "ns"
                      Spec := { TargetNamespaces := some ["ns"] }
                      OwnerRef := some "addon-1" }]
          calls := [] }
      = (none,
          { store := [{ Name := "og"
                        Namespace := "ns"
                        Spec := { TargetNamespaces := some ["ns"] }
                        OwnerRef := some "addon-1" }]
            calls :=
              [StoreCall.get { Name := "og", Namespace := "ns" }
                (client.GetResult.found
                  { Name := "og"
                    Namespace := "ns"
                    Spec := { TargetNamespaces := some ["ns"] }
                    OwnerRef := some "addon-1" })] }) :=
  ⟨by decide,
    (reconcile_is_idempotent { client := memoryStore }
      { Name := "og"
        Namespace := "ns"
        Spec := { TargetNamespaces := some ["ns"] }
        OwnerRef := some "addon-1" }
      { Name := "og"
        Namespace := "ns"
        Spec := { TargetNamespaces := some ["ns"] }
        OwnerRef := some "addon-1" }
      { store := [{ Name := "og"
                    Namespace := "ns"
                    Spec := { TargetNamespaces := some ["ns"] }
                    OwnerRef := some "addon-1" }]
        calls := [] }
      (by decide) rfl rfl).1⟩

end addon
